import Mathlib

/-!
Verification of the signal-app repository (Go).

The repository ships three variants of the same program, separated by
document markers:
  * V1: src/main.go lines 1-422
  * V2: src/main.go lines 423-853
  * V3: src/unnamed/part_000 lines 99-528 (the same file also holds a CI workflow)
This file gives a shallow embedding of the state store, the reconciler
(checkAndHandleStateChange, all three variants), the repeat scheduler
(checkAndPlayRepeatAudio), and the relevant slices of fetchAlerts, loadState,
saveState, convertToLocalTime and main's state-loading step.

Modelling conventions:
  * Timestamps are modelled as `Time := Int`, seconds on a single absolute
    axis (Go `time.Time` instants).  `time.Parse` / `Format` for the two Go
    layouts used by the code are external library calls; they are passed to
    each embedded function as explicit `parse : String → Option Time` and
    `fmt : Time → String` arguments, exactly at the call sites where the Go
    code invokes them.  `time.Now()` is an explicit `now : Time` argument.
  * Go's `int(d.Minutes())` truncates toward zero: `Int.tdiv` of the second
    difference by 60.  Go's `t.Truncate(time.Minute)` rounds down to the
    minute: `60 * Int.fdiv t 60`.  Go's `%` on the already-guaranteed
    non-negative elapsed minutes is `Int.tmod`.
  * Go maps are association lists (`List (String × _)`); a `nil` Go map is
    `Option.none` where the nil/non-nil distinction is observable
    (`State.LastPlayed`); reading a nil map yields the zero value, exactly as
    in Go.  Writing to a nil map panics in Go; the one modelled write that can
    hit a nil map (`lastPlayedSetOpt`) keeps `none` and is only used in
    theorems at states whose map is non-nil.
  * `saveState` cannot signal failure to its caller (it only logs), so each
    persistence point emits a `save` event tagged with the outcome of an
    external write oracle `σ : Nat → Bool`; the oracle is never read by the
    control flow, mirroring the Go code.
  * `playAudio` is a black-box side effect: each call emits a `play` event
    with the path the Go code passes.
-/

namespace Signal

/-- Absolute instants, in seconds (see the module comment). -/
abbrev Time := Int

/-- One alert record of the API response (struct `Alert`, src/main.go:40-43). -/
structure Alert where
  type : String
  lastUpdate : String
deriving DecidableEq, Repr

/-- One region of the API response (struct `Region`, src/main.go:35-38). -/
structure Region where
  lastUpdate : String
  activeAlerts : List Alert
deriving DecidableEq, Repr

/-- The persisted state (struct `State`, src/main.go:45-49).
`activeAlertTypes` is Go's `map[string]bool` as an association list (the Go
code never distinguishes a nil from an empty map here); `lastPlayed` is Go's
`map[string]time.Time` where `none` is a nil map — the code does distinguish
nil from empty for this field (loadState, saveState V2). -/
structure State where
  activeAlertTypes : List (String × Bool)
  lastUpdate : String
  lastPlayed : Option (List (String × Time))
deriving DecidableEq, Repr

/-- The configuration fields read by the embedded functions (struct `Config`,
src/main.go:21-33 and the V2/V3 variant with `EnableRepeatAudio`,
src/main.go:442-455).  `audioFiles` is the Go map read
`config.AudioFiles[alertType]`, which yields `""` for a missing key, so it is
modelled as a total function.  Fields used only by I/O plumbing (URL, auth
header, log settings, poll interval, time zone name) are omitted. -/
structure Config where
  audioFiles : String → String
  alertOnEmpty : String
  repeatAudioFile : String
  repeatIntervalMin : Int
  enableRepeatAudio : Bool

/-- Observable side effects of the core: a `saveState` call (carrying the
state written and the outcome of the underlying file write) and a
`playAudio` call (carrying the path). -/
inductive Event where
  | save (st : State) (ok : Bool)
  | play (path : String)
deriving DecidableEq, Repr

/-- The audio paths played, in order, of a trace. -/
def playsOf (tr : List Event) : List String :=
  tr.filterMap fun e => match e with
    | Event.play p => some p
    | Event.save _ _ => none

/-- The states saved, in order, of a trace. -/
def savesOf (tr : List Event) : List State :=
  tr.filterMap fun e => match e with
    | Event.play _ => none
    | Event.save st _ => some st

/-- An event with the write outcome erased, to state that control flow never
depends on whether a persistence attempt succeeded. -/
inductive EventS where
  | save (st : State)
  | play (path : String)
deriving DecidableEq, Repr

/-- Erase the write outcome of an event. -/
def stripOk : Event → EventS
  | Event.save st _ => EventS.save st
  | Event.play p => EventS.play p

/-- Association-list lookup, first match (a Go map read). -/
def assocLookup (k : String) : List (String × α) → Option α
  | [] => none
  | p :: rest => if p.1 = k then some p.2 else assocLookup k rest

/-- Association-list update `m[k] = v` (a Go map write): replace the value at
an existing key, else append the binding. -/
def assocSet (k : String) (v : α) (m : List (String × α)) : List (String × α) :=
  if (assocLookup k m).isSome then
    m.map fun p => if p.1 = k then (k, v) else p
  else m ++ [(k, v)]

/-- Association-list removal (Go `delete(m, k)`). -/
def assocErase (k : String) : List (String × α) → List (String × α)
  | [] => []
  | p :: rest => if p.1 = k then assocErase k rest else p :: assocErase k rest

/-- Go read of a `map[string]bool`: missing keys give `false`. -/
def boolLookup (m : List (String × Bool)) (k : String) : Bool :=
  (assocLookup k m).getD false

/-- Whether a key is present (used for Go's `range` / `, exists :=` forms). -/
def keyMem (m : List (String × α)) (k : String) : Bool :=
  (assocLookup k m).isSome

/-- Membership in a list of strings (a Go `map[string]bool` whose entries are
all `true`, read as `currentAlerts[t]`). -/
def memStr (t : String) : List String → Bool
  | [] => false
  | s :: rest => if s = t then true else memStr t rest

/-- The key set of the `currentAlerts` map the drivers build from the fetched
alert list (`for _, alert := range alerts { currentAlerts[alert.Type] = true }`,
src/main.go:109-112 etc.): the alert types, deduplicated. -/
def observedTypes : List Alert → List String
  | [] => []
  | a :: rest =>
    if memStr a.type (observedTypes rest) then observedTypes rest
    else a.type :: observedTypes rest

/-- Go `time.Time.Truncate(time.Minute)`: round down to a whole minute. -/
def trunc60 (t : Time) : Time := 60 * Int.fdiv t 60

/-- Go `int(now.Sub(t0).Minutes())`: whole elapsed minutes, truncated toward
zero. -/
def elapsedMinutesOf (now t0 : Time) : Int := Int.tdiv (now - t0) 60

/-- Write into a possibly-nil `lastPlayed` map.  Go panics when the map is
nil (`none`); this total model leaves `none` unchanged and is only relied on
at states whose map is non-nil (see the module comment). -/
def lastPlayedSetOpt (m : Option (List (String × Time))) (k : String) (v : Time) :
    Option (List (String × Time)) :=
  m.map fun l => assocSet k v l

/-- Accumulator threaded through an embedded function body: the in-memory
state, the number of `saveState` calls made so far (indexing the write
oracle), and the emitted events. -/
structure RunAcc where
  st : State
  k : Nat
  tr : List Event
deriving Repr

/-- Emit a `saveState(acc.st)` call. -/
def emitSave (σ : Nat → Bool) (acc : RunAcc) : RunAcc :=
  { acc with k := acc.k + 1, tr := acc.tr ++ [Event.save acc.st (σ acc.k)] }

/-- Emit a `playAudio p` call. -/
def emitPlay (acc : RunAcc) (p : String) : RunAcc :=
  { acc with tr := acc.tr ++ [Event.play p] }

/-- One iteration of the activation pass (src/main.go:344-352, identically
src/unnamed/part_000:448-456): a type present in the observation but not yet
active is recorded, the state is saved, and its activation cue is played. -/
def activationStep (σ : Nat → Bool) (cfg : Config) (acc : RunAcc) (t : String) : RunAcc :=
  if boolLookup acc.st.activeAlertTypes t then acc
  else
    let acc := { acc with
      st := { acc.st with activeAlertTypes := assocSet t true acc.st.activeAlertTypes } }
    emitPlay (emitSave σ acc) (cfg.audioFiles t)

/-- The activation pass: `for alertType := range currentAlerts { ... }`. -/
def handleNewAlerts (σ : Nat → Bool) (cfg : Config) : List String → RunAcc → RunAcc
  | [], acc => acc
  | t :: rest, acc => handleNewAlerts σ cfg rest (activationStep σ cfg acc t)

/-- One iteration of the deactivation pass (src/main.go:354-363, identically
src/unnamed/part_000:458-467): an active type absent from the observation is
deleted, the state is saved, and the shared cleared cue is played. -/
def deactivationStep (σ : Nat → Bool) (cfg : Config) (currentAlerts : List String)
    (acc : RunAcc) (t : String) : RunAcc :=
  if memStr t currentAlerts then acc
  else
    let acc := { acc with
      st := { acc.st with activeAlertTypes := assocErase t acc.st.activeAlertTypes } }
    emitPlay (emitSave σ acc) cfg.alertOnEmpty

/-- The deactivation pass over an explicit key list. -/
def goneFold (σ : Nat → Bool) (cfg : Config) (currentAlerts : List String) :
    List String → RunAcc → RunAcc
  | [], acc => acc
  | t :: rest, acc => goneFold σ cfg currentAlerts rest (deactivationStep σ cfg currentAlerts acc t)

/-- The deactivation pass: `for alertType := range state.ActiveAlertTypes`.
Go's range with in-loop `delete` of only the current key visits exactly the
keys present at loop entry, so the pass snapshots them. -/
def handleGoneAlerts (σ : Nat → Bool) (cfg : Config) (currentAlerts : List String)
    (acc : RunAcc) : RunAcc :=
  goneFold σ cfg currentAlerts (acc.st.activeAlertTypes.map Prod.fst) acc

/-- V1 reconciler `checkAndHandleStateChange` (src/main.go:323-364).
`parseLocal` is `time.Parse("2006-01-02 15:04:05", ·)`; `fmtLocal` is
`Format("2006-01-02 15:04:05")` after the `.In(location)` adjustment of the
success branch; `now` is `time.Now()` of the failure branch. -/
def checkAndHandleStateChange (parseLocal : String → Option Time) (fmtLocal : Time → String)
    (now : Time) (σ : Nat → Bool) (st : State) (currentAlerts : List String)
    (lastUpdate : String) (cfg : Config) : State × List Event :=
  let parsedTime := (parseLocal lastUpdate).getD now
  let lastUpdate := fmtLocal parsedTime
  let acc : RunAcc := { st := st, k := 0, tr := [] }
  let acc :=
    if st.lastUpdate ≠ lastUpdate then
      emitSave σ { acc with st := { st with lastUpdate := lastUpdate } }
    else acc
  let acc := handleNewAlerts σ cfg currentAlerts acc
  let acc := handleGoneAlerts σ cfg currentAlerts acc
  (acc.st, acc.tr)

/-- The relevant-timestamp selection of the V3 reconciler
(src/unnamed/part_000:421-430): the first alert's own `lastUpdate` when the
observation has at least one alert, else the caller-supplied region-level
timestamp. -/
def relevantLastUpdateOf (alerts : List Alert) (lastUpdate : String) : String :=
  match alerts with
  | [] => lastUpdate
  | a :: _ => a.lastUpdate

/-- V3 reconciler `checkAndHandleStateChange` (src/unnamed/part_000:421-468).
`parseRFC` is `time.Parse(time.RFC3339, ·)`, `fmtRFC` is
`Format(time.RFC3339)`, `nowUTC` is `time.Now().UTC()` of the failure
branch. -/
def checkAndHandleStateChangeV3 (parseRFC : String → Option Time) (fmtRFC : Time → String)
    (nowUTC : Time) (σ : Nat → Bool) (st : State) (currentAlerts : List String)
    (alerts : List Alert) (lastUpdate : String) (cfg : Config) : State × List Event :=
  let relevantLastUpdate := relevantLastUpdateOf alerts lastUpdate
  let parsedTime := (parseRFC relevantLastUpdate).getD nowUTC
  let relevantLastUpdateUTC := fmtRFC parsedTime
  let acc : RunAcc := { st := st, k := 0, tr := [] }
  let acc :=
    if st.lastUpdate ≠ relevantLastUpdateUTC then
      emitSave σ { acc with st := { st with lastUpdate := relevantLastUpdateUTC } }
    else acc
  let acc := handleNewAlerts σ cfg currentAlerts acc
  let acc := handleGoneAlerts σ cfg currentAlerts acc
  (acc.st, acc.tr)

/-- The V2 reconciler's alert selection, first loop (src/main.go:753-759):
the first alert whose type is `"AIR"`. -/
def findAIRAlert : List Alert → Option Alert
  | [] => none
  | a :: rest => if a.type = "AIR" then some a else findAIRAlert rest

/-- The V2 reconciler's fallback selection, second loop (src/main.go:762-769):
scan the whole list keeping the strictly earliest `lastUpdate` (Go string
comparison). -/
def earliestAlert (sel : Alert) : List Alert → Alert
  | [] => sel
  | a :: rest => earliestAlert (if a.lastUpdate < sel.lastUpdate then a else sel) rest

/-- The V2 reconciler's selected alert (src/main.go:752-769): prefer `"AIR"`,
else the earliest of a non-empty list (seeded with `alerts[0]` and rescanning
the full list, as the Go code does), else none. -/
def selectAlert (alerts : List Alert) : Option Alert :=
  match findAIRAlert alerts with
  | some a => some a
  | none =>
    match alerts with
    | [] => none
    | a :: _ => some (earliestAlert a alerts)

/-- V2 reconciler `checkAndHandleStateChange` (src/main.go:751-800): only the
selected alert is activated (recording `lastPlayed[type] = time.Now().UTC()`),
then the deactivation pass runs as in V1.  The `lastUpdate` parameter of the
Go function is used only in log output, and the timestamp comparison happens
in `runMainLoop` (src/main.go:562-567), not here. -/
def checkAndHandleStateChangeV2 (nowUTC : Time) (σ : Nat → Bool) (st : State)
    (currentAlerts : List String) (alerts : List Alert) (cfg : Config) : State × List Event :=
  let acc : RunAcc := { st := st, k := 0, tr := [] }
  let acc :=
    match selectAlert alerts with
    | none => acc
    | some a =>
      if boolLookup acc.st.activeAlertTypes a.type then acc
      else
        let acc := { acc with
          st := { acc.st with
            activeAlertTypes := assocSet a.type true acc.st.activeAlertTypes,
            lastPlayed := lastPlayedSetOpt acc.st.lastPlayed a.type nowUTC } }
        emitPlay (emitSave σ acc) (cfg.audioFiles a.type)
  let acc := handleGoneAlerts σ cfg currentAlerts acc
  (acc.st, acc.tr)

/-- One iteration of the repeat scheduler's loop over active types
(src/unnamed/part_000:475-505; src/main.go:371-399 is the same body with
`parse` the local layout and no enable flag in the guard outside). -/
def repeatStep (parse : String → Option Time) (now : Time) (σ : Nat → Bool)
    (cfg : Config) (acc : RunAcc) (t : String) : RunAcc :=
  match parse acc.st.lastUpdate with
  | none => acc
  | some lastUpdateTime =>
    let elapsedMinutes := elapsedMinutesOf now lastUpdateTime
    if elapsedMinutes < 0 then acc
    else if Int.tmod elapsedMinutes cfg.repeatIntervalMin = 0 then
      if assocLookup t ((acc.st.lastPlayed).getD []) = some (trunc60 now) then acc
      else
        let acc := emitPlay acc cfg.repeatAudioFile
        let acc := { acc with
          st := { acc.st with
            lastPlayed := lastPlayedSetOpt acc.st.lastPlayed t (trunc60 now) } }
        emitSave σ acc
    else acc

/-- The repeat scheduler's loop over an explicit key list. -/
def repeatFold (parse : String → Option Time) (now : Time) (σ : Nat → Bool)
    (cfg : Config) : List String → RunAcc → RunAcc
  | [], acc => acc
  | t :: rest, acc => repeatFold parse now σ cfg rest (repeatStep parse now σ cfg acc t)

/-- Repeat scheduler `checkAndPlayRepeatAudio` (src/unnamed/part_000:470-506;
the V2 guard src/main.go:802-805 is identical, the V1 guard src/main.go:366-369
lacks the `EnableRepeatAudio` conjunct because the V1 `Config` has no such
field). -/
def checkAndPlayRepeatAudio (parse : String → Option Time) (now : Time) (σ : Nat → Bool)
    (st : State) (cfg : Config) : State × List Event :=
  if !cfg.enableRepeatAudio || cfg.repeatAudioFile == "" ||
      decide (cfg.repeatIntervalMin ≤ 0) then (st, [])
  else
    let acc := repeatFold parse now σ cfg (st.activeAlertTypes.map Prod.fst)
      { st := st, k := 0, tr := [] }
    (acc.st, acc.tr)

/-- The JSON document written to / read from the state file.  It mirrors
`State`; `lastPlayed = none` is the JSON `null` that `json.Marshal` produces
for a nil Go map and that `json.Unmarshal` turns back into a nil map. -/
structure StoredState where
  activeAlertTypes : List (String × Bool)
  lastUpdate : String
  lastPlayed : Option (List (String × Time))
deriving DecidableEq, Repr

/-- What reading the state file yields: the file is missing, or present with
contents that either fail `json.Unmarshal` (`found none`) or decode to a
document. -/
inductive ReadResult where
  | notExist
  | found (doc : Option StoredState)
deriving DecidableEq, Repr

/-- The state a decoded document denotes. -/
def decodeState (d : StoredState) : State :=
  { activeAlertTypes := d.activeAlertTypes, lastUpdate := d.lastUpdate,
    lastPlayed := d.lastPlayed }

/-- The state `loadState` returns for a present, decodable file
(src/main.go:267-272): the decoded document, with a nil `lastPlayed`
replaced by an initialized empty map. -/
def loadStateOk (d : StoredState) : State :=
  let st := decodeState d
  if st.lastPlayed = none then { st with lastPlayed := some [] } else st

/-- `loadState` (src/main.go:259-273, identically src/unnamed/part_000:357-371).
A missing file returns `&State{ActiveAlertTypes: make(map[string]bool)}` and a
nil error — note this early return happens before the nil-`LastPlayed` check,
so `lastPlayed` stays nil.  A present file that fails to unmarshal returns a
non-nil error (the caller discards the partial state). -/
def loadState : ReadResult → Except Unit State
  | ReadResult.notExist =>
    Except.ok { activeAlertTypes := [], lastUpdate := "", lastPlayed := none }
  | ReadResult.found none => Except.error ()
  | ReadResult.found (some d) => Except.ok (loadStateOk d)

/-- The document `saveState` V1 writes (src/main.go:275-285): a plain marshal
of the state.  Marshal and write errors are logged and ignored. -/
def saveDocV1 (st : State) : StoredState :=
  { activeAlertTypes := st.activeAlertTypes, lastUpdate := st.lastUpdate,
    lastPlayed := st.lastPlayed }

/-- `saveState` V2 (src/main.go:701-721): a `lastPlayed` of length 0 (nil or
empty) is set to nil before marshalling, and after the write a nil
`lastPlayed` is restored to an initialized empty map.  Returns the document
written and the state as left in memory. -/
def saveStateV2 (st : State) : StoredState × State :=
  let lp := if (st.lastPlayed.getD []).length = 0 then none else st.lastPlayed
  let doc : StoredState :=
    { activeAlertTypes := st.activeAlertTypes, lastUpdate := st.lastUpdate, lastPlayed := lp }
  let stAfter : State :=
    if lp = none then { st with lastPlayed := some [] } else { st with lastPlayed := lp }
  (doc, stAfter)

/-- The state-loading step of V1 `main` (src/main.go:83-91): a `loadState`
error is logged with `log.Printf` — not `log.Fatalf` — and replaced by a fresh
default state whose `lastUpdate` is the sentinel `"неизвестно"` ("unknown").
`none` would model a `log.Fatalf` abort, as in the config and time-zone steps
of `main`; this step has no such path. -/
def mainLoadPhase (r : ReadResult) : Option State :=
  match loadState r with
  | Except.ok st => some st
  | Except.error _ => some
    { activeAlertTypes := [], lastUpdate := "неизвестно", lastPlayed := some [] }

/-- The post-decode tail of `fetchAlerts` (src/main.go:222-229): with at least
one region, a non-empty alert list is returned with the first alert's own
timestamp, an empty alert list with the region-level timestamp; with zero
regions, an empty list and an empty timestamp.  Every one of these returns
carries a nil error. -/
def fetchAlertsDecoded : List Region → Except Unit (List Alert × String)
  | [] => Except.ok ([], "")
  | r :: _ =>
    match r.activeAlerts with
    | [] => Except.ok ([], r.lastUpdate)
    | a :: rest => Except.ok (a :: rest, a.lastUpdate)

/-- `convertToLocalTime` V1 (src/main.go:300-313): parse as RFC3339 and render
in the configured zone; on parse failure return the input unchanged.  The
`hasActiveAlerts` flag only selects log text. -/
def convertToLocalTime (parseRFC : String → Option Time) (fmtLocal : Time → String)
    (utcTime : String) (hasActiveAlerts : Bool) : String :=
  match parseRFC utcTime with
  | none => utcTime
  | some t =>
    let _ := hasActiveAlerts
    fmtLocal t

/-- The accumulator left by the timestamp phase shared by the V1 and V3
reconcilers (compare `lastUpdate` to the state; on difference mutate and
save).  The bodies of `checkAndHandleStateChange` and
`checkAndHandleStateChangeV3` reduce definitionally to the passes applied to
this accumulator. -/
def tsPhaseAcc (σ : Nat → Bool) (st : State) (lu2 : String) : RunAcc :=
  if st.lastUpdate ≠ lu2 then
    emitSave σ { st := { st with lastUpdate := lu2 }, k := 0, tr := [] }
  else { st := st, k := 0, tr := [] }

/-- Whether the V2 reconciler's selected alert has type `x`. -/
def selMatches (alerts : List Alert) (x : String) : Bool :=
  match selectAlert alerts with
  | none => false
  | some a => decide (a.type = x)

/-- A concrete configuration used to instantiate theorems with hypotheses at
closed inputs. -/
def cfgFix : Config :=
  { audioFiles := fun t => if t = "AIR" then "air.mp3" else if t = "FIRE" then "fire.mp3" else ""
    alertOnEmpty := "clear.mp3"
    repeatAudioFile := "rep.mp3"
    repeatIntervalMin := 2
    enableRepeatAudio := true }

/-- A concrete timestamp parser used to instantiate theorems at closed
inputs: it accepts exactly the string "TS" (as instant 100). -/
def parseFix : String → Option Time :=
  fun s => if s = "TS" then some (100 : Int) else none

/-- A concrete timestamp renderer used to instantiate theorems at closed
inputs. -/
def fmtFix : Time → String :=
  fun t => if t = 100 then "F100" else if t = 7 then "F7" else "FX"

/-- Trace well-formedness for the reconciler (claim C4): the trace is a
sequence of lone `save` events and of two-event blocks in which a `save` of
the already-mutated state immediately precedes the transition's cue — an
activation block saves a state in which the type reads active and then plays
that type's activation cue; a deactivation block saves a state from which the
type's key is gone and then plays the shared cleared cue. -/
inductive TransBlocks (cfg : Config) : List Event → Prop where
  | nil : TransBlocks cfg []
  | lone (st : State) (ok : Bool) (rest : List Event) :
      TransBlocks cfg rest → TransBlocks cfg (Event.save st ok :: rest)
  | act (st : State) (ok : Bool) (t : String) (rest : List Event) :
      boolLookup st.activeAlertTypes t = true → TransBlocks cfg rest →
      TransBlocks cfg (Event.save st ok :: Event.play (cfg.audioFiles t) :: rest)
  | deact (st : State) (ok : Bool) (t : String) (rest : List Event) :
      keyMem st.activeAlertTypes t = false → TransBlocks cfg rest →
      TransBlocks cfg (Event.save st ok :: Event.play cfg.alertOnEmpty :: rest)

/-- Two runs agree except possibly in the write outcomes recorded on their
`save` events: same state, same persistence-call count, same outcome-erased
trace. -/
def AccSim (a b : RunAcc) : Prop :=
  a.st = b.st ∧ a.k = b.k ∧ a.tr.map stripOk = b.tr.map stripOk

/-- The firing condition of the repeat scheduler, per alert type, stated from
the claim (C3): the stored `lastUpdate` parses, the elapsed whole minutes are
non-negative, they are divisible by the repeat interval, and no repeat was
recorded for this type at the current minute boundary. -/
def repeatDue (parse : String → Option Time) (interval : Int) (now : Time)
    (lastUpdate : String) (lp : List (String × Time)) (t : String) : Bool :=
  match parse lastUpdate with
  | none => false
  | some t0 =>
    decide (0 ≤ elapsedMinutesOf now t0) &&
      decide (Int.tmod (elapsedMinutesOf now t0) interval = 0) &&
      !decide (assocLookup t lp = some (trunc60 now))

/-- A `lastPlayed` value with the nil/empty distinction erased (the
normalization policy of the store round-trip, claim C8). -/
def lpNorm (o : Option (List (String × Time))) : List (String × Time) :=
  o.getD []

/-- State equivalence up to the nil/empty `lastPlayed` normalization. -/
def stateEquiv (a b : State) : Prop :=
  a.activeAlertTypes = b.activeAlertTypes ∧ a.lastUpdate = b.lastUpdate ∧
    lpNorm a.lastPlayed = lpNorm b.lastPlayed

/-! Association-list lemmas. -/

theorem assocLookup_append (k : String) (m₁ m₂ : List (String × α)) :
    assocLookup k (m₁ ++ m₂) =
      match assocLookup k m₁ with
      | some v => some v
      | none => assocLookup k m₂ := by
  induction m₁ with
  | nil => simp [assocLookup]
  | cons p rest ih =>
    by_cases h : p.1 = k <;> simp [assocLookup, h, ih]

theorem assocLookup_map_set_self (k : String) (v : α) (m : List (String × α))
    (h : (assocLookup k m).isSome = true) :
    assocLookup k (m.map fun p => if p.1 = k then (k, v) else p) = some v := by
  induction m with
  | nil => simp [assocLookup] at h
  | cons p rest ih =>
    by_cases hp : p.1 = k
    · simp [assocLookup, hp]
    · simp only [assocLookup, hp, if_false] at h
      simp [assocLookup, hp, ih h]

theorem assocLookup_map_set_ne (t k : String) (hne : t ≠ k) (v : α) (m : List (String × α)) :
    assocLookup t (m.map fun p => if p.1 = k then (k, v) else p) = assocLookup t m := by
  induction m with
  | nil => simp
  | cons p rest ih =>
    by_cases hp : p.1 = k
    · have hkt : ¬ k = t := fun hh => hne hh.symm
      have hpt : ¬ p.1 = t := by rw [hp]; exact hkt
      simp [assocLookup, hp, hkt, hpt, hne, ih]
    · by_cases hpt : p.1 = t <;> simp [assocLookup, hp, hpt, hne, ih]

theorem assocLookup_set_self (k : String) (v : α) (m : List (String × α)) :
    assocLookup k (assocSet k v m) = some v := by
  cases hl : assocLookup k m with
  | some w =>
    have h : (assocLookup k m).isSome = true := by simp [hl]
    simp only [assocSet, h, if_true]
    exact assocLookup_map_set_self k v m h
  | none =>
    simp only [assocSet, hl, Option.isSome_none, Bool.false_eq_true, if_false]
    rw [assocLookup_append, hl]
    simp [assocLookup]

theorem assocLookup_set_ne (t k : String) (hne : t ≠ k) (v : α) (m : List (String × α)) :
    assocLookup t (assocSet k v m) = assocLookup t m := by
  cases hl : assocLookup k m with
  | some w =>
    have h : (assocLookup k m).isSome = true := by simp [hl]
    simp only [assocSet, h, if_true]
    exact assocLookup_map_set_ne t k hne v m
  | none =>
    simp only [assocSet, hl, Option.isSome_none, Bool.false_eq_true, if_false]
    rw [assocLookup_append]
    have hkt : ¬ k = t := fun hh => hne hh.symm
    cases hm : assocLookup t m <;> simp [assocLookup, hkt]

theorem assocLookup_erase_self (k : String) (m : List (String × α)) :
    assocLookup k (assocErase k m) = none := by
  induction m with
  | nil => simp [assocErase, assocLookup]
  | cons p rest ih =>
    by_cases hp : p.1 = k <;> simp [assocErase, assocLookup, hp, ih]

theorem assocLookup_erase_ne (t k : String) (hne : t ≠ k) (m : List (String × α)) :
    assocLookup t (assocErase k m) = assocLookup t m := by
  induction m with
  | nil => simp [assocErase]
  | cons p rest ih =>
    have hkt : ¬ k = t := fun hh => hne hh.symm
    by_cases hp : p.1 = k
    · have hpt : ¬ p.1 = t := by rw [hp]; exact hkt
      simp [assocErase, assocLookup, hp, hpt, hkt, hne, ih]
    · by_cases hpt : p.1 = t <;> simp [assocErase, assocLookup, hp, hpt, hkt, hne, ih]

theorem boolLookup_of_not_keyMem (m : List (String × Bool)) (t : String)
    (h : keyMem m t = false) : boolLookup m t = false := by
  unfold keyMem at h
  have h2 : assocLookup t m = none := by
    cases hl : assocLookup t m with
    | none => rfl
    | some w => rw [hl] at h; simp at h
  unfold boolLookup
  rw [h2]
  rfl

theorem memStr_map_fst_eq_keyMem (m : List (String × α)) (t : String) :
    memStr t (m.map Prod.fst) = keyMem m t := by
  induction m with
  | nil => simp [memStr, keyMem, assocLookup]
  | cons p rest ih =>
    by_cases hp : p.1 = t <;> simp [memStr, keyMem, assocLookup, hp, ih]

theorem boolLookup_set_self (k : String) (m : List (String × Bool)) :
    boolLookup (assocSet k true m) k = true := by
  unfold boolLookup
  rw [assocLookup_set_self]
  rfl

theorem boolLookup_set_ne (t k : String) (hne : t ≠ k) (v : Bool) (m : List (String × Bool)) :
    boolLookup (assocSet k v m) t = boolLookup m t := by
  unfold boolLookup
  rw [assocLookup_set_ne t k hne]

theorem boolLookup_erase_self (k : String) (m : List (String × Bool)) :
    boolLookup (assocErase k m) k = false := by
  unfold boolLookup
  rw [assocLookup_erase_self]
  rfl

theorem boolLookup_erase_ne (t k : String) (hne : t ≠ k) (m : List (String × Bool)) :
    boolLookup (assocErase k m) t = boolLookup m t := by
  unfold boolLookup
  rw [assocLookup_erase_ne t k hne]

theorem keyMem_set_self (k : String) (v : α) (m : List (String × α)) :
    keyMem (assocSet k v m) k = true := by
  unfold keyMem
  rw [assocLookup_set_self]
  rfl

theorem keyMem_set_ne (t k : String) (hne : t ≠ k) (v : α) (m : List (String × α)) :
    keyMem (assocSet k v m) t = keyMem m t := by
  unfold keyMem
  rw [assocLookup_set_ne t k hne]

theorem keyMem_erase_self (k : String) (m : List (String × α)) :
    keyMem (assocErase k m) k = false := by
  unfold keyMem
  rw [assocLookup_erase_self]
  rfl

theorem keyMem_erase_ne (t k : String) (hne : t ≠ k) (m : List (String × α)) :
    keyMem (assocErase k m) t = keyMem m t := by
  unfold keyMem
  rw [assocLookup_erase_ne t k hne]

/-! Lemmas on the activation pass. -/

theorem activationStep_st (σ : Nat → Bool) (cfg : Config) (acc : RunAcc) (t : String) :
    (activationStep σ cfg acc t).st =
      (if boolLookup acc.st.activeAlertTypes t then acc.st
       else { acc.st with activeAlertTypes := assocSet t true acc.st.activeAlertTypes }) := by
  unfold activationStep
  cases h : boolLookup acc.st.activeAlertTypes t <;> simp [h, emitPlay, emitSave]

theorem activationStep_tr (σ : Nat → Bool) (cfg : Config) (acc : RunAcc) (t : String) :
    (activationStep σ cfg acc t).tr =
      acc.tr ++
        (if boolLookup acc.st.activeAlertTypes t then []
         else [Event.save { acc.st with activeAlertTypes := assocSet t true acc.st.activeAlertTypes }
                 (σ acc.k),
               Event.play (cfg.audioFiles t)]) := by
  unfold activationStep
  cases h : boolLookup acc.st.activeAlertTypes t <;> simp [h, emitPlay, emitSave]

theorem handleNewAlerts_lastUpdate (σ : Nat → Bool) (cfg : Config) (ts : List String) :
    ∀ acc, (handleNewAlerts σ cfg ts acc).st.lastUpdate = acc.st.lastUpdate := by
  induction ts with
  | nil => intro acc; rfl
  | cons t rest ih =>
    intro acc
    rw [handleNewAlerts, ih, activationStep_st]
    cases h : boolLookup acc.st.activeAlertTypes t <;> simp

theorem handleNewAlerts_lastPlayed (σ : Nat → Bool) (cfg : Config) (ts : List String) :
    ∀ acc, (handleNewAlerts σ cfg ts acc).st.lastPlayed = acc.st.lastPlayed := by
  induction ts with
  | nil => intro acc; rfl
  | cons t rest ih =>
    intro acc
    rw [handleNewAlerts, ih, activationStep_st]
    cases h : boolLookup acc.st.activeAlertTypes t <;> simp

theorem handleNewAlerts_boolLookup (σ : Nat → Bool) (cfg : Config) (ts : List String) :
    ∀ acc x, boolLookup (handleNewAlerts σ cfg ts acc).st.activeAlertTypes x =
      (boolLookup acc.st.activeAlertTypes x || memStr x ts) := by
  induction ts with
  | nil => intro acc x; simp [handleNewAlerts, memStr]
  | cons t rest ih =>
    intro acc x
    rw [handleNewAlerts, ih, activationStep_st]
    cases h : boolLookup acc.st.activeAlertTypes t
    · by_cases hx : t = x
      · subst hx
        simp [h, boolLookup_set_self, memStr]
      · simp [h, boolLookup_set_ne x t (fun hh => hx hh.symm), memStr, hx]
    · by_cases hx : t = x
      · subst hx; simp [memStr, h]
      · simp [memStr, hx, h]

theorem handleNewAlerts_keyMem (σ : Nat → Bool) (cfg : Config) (ts : List String) :
    ∀ acc x, keyMem (handleNewAlerts σ cfg ts acc).st.activeAlertTypes x =
      (keyMem acc.st.activeAlertTypes x || memStr x ts) := by
  induction ts with
  | nil => intro acc x; simp [handleNewAlerts, memStr]
  | cons t rest ih =>
    intro acc x
    rw [handleNewAlerts, ih, activationStep_st]
    cases h : boolLookup acc.st.activeAlertTypes t
    · by_cases hx : t = x
      · subst hx
        simp [h, keyMem_set_self, memStr]
      · simp [h, keyMem_set_ne x t (fun hh => hx hh.symm), memStr, hx]
    · by_cases hx : t = x
      · subst hx
        have hk : keyMem acc.st.activeAlertTypes t = true := by
          unfold boolLookup at h
          unfold keyMem
          cases hl : assocLookup t acc.st.activeAlertTypes with
          | none => rw [hl] at h; simp at h
          | some w => rfl
        simp [memStr, hk, h]
      · simp [memStr, hx, h]

theorem handleNewAlerts_tr (σ : Nat → Bool) (cfg : Config) (ts : List String) :
    ∀ acc, ∃ s, (handleNewAlerts σ cfg ts acc).tr = acc.tr ++ s := by
  induction ts with
  | nil => intro acc; exact ⟨[], by simp [handleNewAlerts]⟩
  | cons t rest ih =>
    intro acc
    rw [handleNewAlerts]
    obtain ⟨s, hs⟩ := ih (activationStep σ cfg acc t)
    rw [hs, activationStep_tr, List.append_assoc]
    exact ⟨_, rfl⟩

theorem handleNewAlerts_tr_mem (σ : Nat → Bool) (cfg : Config) (ts : List String)
    (acc : RunAcc) (e : Event) (h : e ∈ acc.tr) :
    e ∈ (handleNewAlerts σ cfg ts acc).tr := by
  obtain ⟨s, hs⟩ := handleNewAlerts_tr σ cfg ts acc
  rw [hs]
  exact List.mem_append_left _ h

theorem handleNewAlerts_play (σ : Nat → Bool) (cfg : Config) (ts : List String) :
    ∀ acc x, memStr x ts = true → boolLookup acc.st.activeAlertTypes x = false →
      Event.play (cfg.audioFiles x) ∈ (handleNewAlerts σ cfg ts acc).tr := by
  induction ts with
  | nil => intro acc x hmem _; simp [memStr] at hmem
  | cons t rest ih =>
    intro acc x hmem hlk
    rw [handleNewAlerts]
    by_cases hx : t = x
    · subst hx
      have hplay : Event.play (cfg.audioFiles t) ∈ (activationStep σ cfg acc t).tr := by
        unfold activationStep
        simp [hlk, emitPlay, emitSave]
      exact handleNewAlerts_tr_mem σ cfg rest _ _ hplay
    · have hmem' : memStr x rest = true := by
        simpa [memStr, hx] using hmem
      have hlk' : boolLookup (activationStep σ cfg acc t).st.activeAlertTypes x = false := by
        unfold activationStep
        by_cases h : boolLookup acc.st.activeAlertTypes t = true
        · simp [h, hlk]
        · simp [h, emitPlay, emitSave, boolLookup_set_ne x t (fun hh => hx hh.symm), hlk]
      exact ih _ x hmem' hlk'

theorem handleNewAlerts_noop (σ : Nat → Bool) (cfg : Config) (ts : List String) :
    ∀ acc, (∀ x, memStr x ts = true → boolLookup acc.st.activeAlertTypes x = true) →
      handleNewAlerts σ cfg ts acc = acc := by
  induction ts with
  | nil => intro acc _; rfl
  | cons t rest ih =>
    intro acc h
    have ht : boolLookup acc.st.activeAlertTypes t = true := by
      refine h t ?_
      simp [memStr]
    have hstep : activationStep σ cfg acc t = acc := by
      unfold activationStep
      simp [ht]
    rw [handleNewAlerts, hstep]
    refine ih acc fun x hx => h x ?_
    by_cases hxt : t = x <;> simp [memStr, hxt, hx]

/-! Lemmas on the deactivation pass. -/

theorem deactivationStep_st (σ : Nat → Bool) (cfg : Config) (ca : List String)
    (acc : RunAcc) (t : String) :
    (deactivationStep σ cfg ca acc t).st =
      (if memStr t ca then acc.st
       else { acc.st with activeAlertTypes := assocErase t acc.st.activeAlertTypes }) := by
  unfold deactivationStep
  cases h : memStr t ca <;> simp [h, emitPlay, emitSave]

theorem deactivationStep_tr (σ : Nat → Bool) (cfg : Config) (ca : List String)
    (acc : RunAcc) (t : String) :
    (deactivationStep σ cfg ca acc t).tr =
      acc.tr ++
        (if memStr t ca then []
         else [Event.save { acc.st with activeAlertTypes := assocErase t acc.st.activeAlertTypes }
                 (σ acc.k),
               Event.play cfg.alertOnEmpty]) := by
  unfold deactivationStep
  cases h : memStr t ca <;> simp [h, emitPlay, emitSave]

theorem goneFold_lastUpdate (σ : Nat → Bool) (cfg : Config) (ca : List String)
    (keys : List String) :
    ∀ acc, (goneFold σ cfg ca keys acc).st.lastUpdate = acc.st.lastUpdate := by
  induction keys with
  | nil => intro acc; rfl
  | cons t rest ih =>
    intro acc
    rw [goneFold, ih, deactivationStep_st]
    cases h : memStr t ca <;> simp

theorem goneFold_lastPlayed (σ : Nat → Bool) (cfg : Config) (ca : List String)
    (keys : List String) :
    ∀ acc, (goneFold σ cfg ca keys acc).st.lastPlayed = acc.st.lastPlayed := by
  induction keys with
  | nil => intro acc; rfl
  | cons t rest ih =>
    intro acc
    rw [goneFold, ih, deactivationStep_st]
    cases h : memStr t ca <;> simp

theorem goneFold_boolLookup (σ : Nat → Bool) (cfg : Config) (ca : List String)
    (keys : List String) :
    ∀ acc x, boolLookup (goneFold σ cfg ca keys acc).st.activeAlertTypes x =
      (if memStr x keys && !memStr x ca then false else boolLookup acc.st.activeAlertTypes x) := by
  induction keys with
  | nil => intro acc x; simp [goneFold, memStr]
  | cons t rest ih =>
    intro acc x
    rw [goneFold, ih, deactivationStep_st]
    cases h : memStr t ca
    · by_cases hx : t = x
      · subst hx
        simp [h, boolLookup_erase_self, memStr]
      · simp [h, boolLookup_erase_ne x t (fun hh => hx hh.symm), memStr, hx]
    · by_cases hx : t = x
      · subst hx; simp [memStr, h]
      · simp [memStr, hx, h]

theorem goneFold_keyMem (σ : Nat → Bool) (cfg : Config) (ca : List String)
    (keys : List String) :
    ∀ acc x, keyMem (goneFold σ cfg ca keys acc).st.activeAlertTypes x =
      (if memStr x keys && !memStr x ca then false else keyMem acc.st.activeAlertTypes x) := by
  induction keys with
  | nil => intro acc x; simp [goneFold, memStr]
  | cons t rest ih =>
    intro acc x
    rw [goneFold, ih, deactivationStep_st]
    cases h : memStr t ca
    · by_cases hx : t = x
      · subst hx
        simp [h, keyMem_erase_self, memStr]
      · simp [h, keyMem_erase_ne x t (fun hh => hx hh.symm), memStr, hx]
    · by_cases hx : t = x
      · subst hx; simp [memStr, h]
      · simp [memStr, hx, h]

theorem goneFold_tr (σ : Nat → Bool) (cfg : Config) (ca : List String) (keys : List String) :
    ∀ acc, ∃ s, (goneFold σ cfg ca keys acc).tr = acc.tr ++ s := by
  induction keys with
  | nil => intro acc; exact ⟨[], by simp [goneFold]⟩
  | cons t rest ih =>
    intro acc
    rw [goneFold]
    obtain ⟨s, hs⟩ := ih (deactivationStep σ cfg ca acc t)
    rw [hs, deactivationStep_tr, List.append_assoc]
    exact ⟨_, rfl⟩

theorem goneFold_tr_mem (σ : Nat → Bool) (cfg : Config) (ca : List String)
    (keys : List String) (acc : RunAcc) (e : Event) (h : e ∈ acc.tr) :
    e ∈ (goneFold σ cfg ca keys acc).tr := by
  obtain ⟨s, hs⟩ := goneFold_tr σ cfg ca keys acc
  rw [hs]
  exact List.mem_append_left _ h

theorem goneFold_play (σ : Nat → Bool) (cfg : Config) (ca : List String) (keys : List String) :
    ∀ acc x, memStr x keys = true → memStr x ca = false →
      Event.play cfg.alertOnEmpty ∈ (goneFold σ cfg ca keys acc).tr := by
  induction keys with
  | nil => intro acc x hmem _; simp [memStr] at hmem
  | cons t rest ih =>
    intro acc x hmem hca
    rw [goneFold]
    by_cases hx : t = x
    · subst hx
      have hplay : Event.play cfg.alertOnEmpty ∈ (deactivationStep σ cfg ca acc t).tr := by
        unfold deactivationStep
        simp [hca, emitPlay, emitSave]
      exact goneFold_tr_mem σ cfg ca rest _ _ hplay
    · have hmem' : memStr x rest = true := by
        simpa [memStr, hx] using hmem
      exact ih _ x hmem' hca

theorem goneFold_noop (σ : Nat → Bool) (cfg : Config) (ca : List String) (keys : List String) :
    ∀ acc, (∀ x, memStr x keys = true → memStr x ca = true) →
      goneFold σ cfg ca keys acc = acc := by
  induction keys with
  | nil => intro acc _; rfl
  | cons t rest ih =>
    intro acc h
    have ht : memStr t ca = true := by
      refine h t ?_
      simp [memStr]
    have hstep : deactivationStep σ cfg ca acc t = acc := by
      unfold deactivationStep
      simp [ht]
    rw [goneFold, hstep]
    refine ih acc fun x hx => h x ?_
    by_cases hxt : t = x <;> simp [memStr, hxt, hx]

/-! Lemmas on the two passes composed, as run by every reconciler variant. -/

theorem passes_boolLookup (σ : Nat → Bool) (cfg : Config) (ts : List String) (acc : RunAcc)
    (x : String) :
    boolLookup (handleGoneAlerts σ cfg ts
      (handleNewAlerts σ cfg ts acc)).st.activeAlertTypes x = memStr x ts := by
  unfold handleGoneAlerts
  rw [goneFold_boolLookup, memStr_map_fst_eq_keyMem, handleNewAlerts_keyMem,
    handleNewAlerts_boolLookup]
  cases hts : memStr x ts
  · cases hkm : keyMem acc.st.activeAlertTypes x
    · simp [hkm, hts, boolLookup_of_not_keyMem _ _ hkm]
    · simp [hkm, hts]
  · simp [hts]

theorem passes_keyMem (σ : Nat → Bool) (cfg : Config) (ts : List String) (acc : RunAcc)
    (x : String) :
    keyMem (handleGoneAlerts σ cfg ts
      (handleNewAlerts σ cfg ts acc)).st.activeAlertTypes x = memStr x ts := by
  unfold handleGoneAlerts
  rw [goneFold_keyMem, memStr_map_fst_eq_keyMem, handleNewAlerts_keyMem]
  cases hts : memStr x ts
  · cases hkm : keyMem acc.st.activeAlertTypes x <;> simp [hkm, hts]
  · simp [hts]

theorem passes_lastUpdate (σ : Nat → Bool) (cfg : Config) (ts : List String) (acc : RunAcc) :
    (handleGoneAlerts σ cfg ts (handleNewAlerts σ cfg ts acc)).st.lastUpdate =
      acc.st.lastUpdate := by
  unfold handleGoneAlerts
  rw [goneFold_lastUpdate, handleNewAlerts_lastUpdate]

theorem passes_lastPlayed (σ : Nat → Bool) (cfg : Config) (ts : List String) (acc : RunAcc) :
    (handleGoneAlerts σ cfg ts (handleNewAlerts σ cfg ts acc)).st.lastPlayed =
      acc.st.lastPlayed := by
  unfold handleGoneAlerts
  rw [goneFold_lastPlayed, handleNewAlerts_lastPlayed]

theorem passes_tr (σ : Nat → Bool) (cfg : Config) (ts : List String) (acc : RunAcc) :
    ∃ s, (handleGoneAlerts σ cfg ts (handleNewAlerts σ cfg ts acc)).tr = acc.tr ++ s := by
  obtain ⟨s₁, hs₁⟩ := handleNewAlerts_tr σ cfg ts acc
  unfold handleGoneAlerts
  obtain ⟨s₂, hs₂⟩ := goneFold_tr σ cfg ts
    ((handleNewAlerts σ cfg ts acc).st.activeAlertTypes.map Prod.fst)
    (handleNewAlerts σ cfg ts acc)
  rw [hs₂, hs₁, List.append_assoc]
  exact ⟨_, rfl⟩

theorem passes_play_act (σ : Nat → Bool) (cfg : Config) (ts : List String) (acc : RunAcc)
    (x : String) (hmem : memStr x ts = true)
    (hlk : boolLookup acc.st.activeAlertTypes x = false) :
    Event.play (cfg.audioFiles x) ∈
      (handleGoneAlerts σ cfg ts (handleNewAlerts σ cfg ts acc)).tr := by
  unfold handleGoneAlerts
  exact goneFold_tr_mem σ cfg ts _ _ _ (handleNewAlerts_play σ cfg ts acc x hmem hlk)

theorem passes_play_deact (σ : Nat → Bool) (cfg : Config) (ts : List String) (acc : RunAcc)
    (x : String) (hkm : keyMem acc.st.activeAlertTypes x = true)
    (hmem : memStr x ts = false) :
    Event.play cfg.alertOnEmpty ∈
      (handleGoneAlerts σ cfg ts (handleNewAlerts σ cfg ts acc)).tr := by
  unfold handleGoneAlerts
  refine goneFold_play σ cfg ts _ _ x ?_ hmem
  rw [memStr_map_fst_eq_keyMem, handleNewAlerts_keyMem, hkm]
  rfl

theorem passes_noop (σ : Nat → Bool) (cfg : Config) (ts : List String) (acc : RunAcc)
    (hb : ∀ x, boolLookup acc.st.activeAlertTypes x = memStr x ts)
    (hk : ∀ x, keyMem acc.st.activeAlertTypes x = memStr x ts) :
    handleGoneAlerts σ cfg ts (handleNewAlerts σ cfg ts acc) = acc := by
  have h1 : handleNewAlerts σ cfg ts acc = acc :=
    handleNewAlerts_noop σ cfg ts acc fun x hx => by rw [hb x, hx]
  rw [h1]
  unfold handleGoneAlerts
  refine goneFold_noop σ cfg ts _ acc fun x hx => ?_
  rw [memStr_map_fst_eq_keyMem] at hx
  rw [← hk x]
  exact hx

/-! Trace well-formedness (persist-before-cue blocks). -/

theorem transBlocks_append (cfg : Config) (l₁ l₂ : List Event)
    (h₁ : TransBlocks cfg l₁) (h₂ : TransBlocks cfg l₂) : TransBlocks cfg (l₁ ++ l₂) := by
  induction h₁ with
  | nil => simpa using h₂
  | lone st ok rest _ ih =>
    rw [List.cons_append]
    exact TransBlocks.lone st ok _ ih
  | act st ok t rest hlk _ ih =>
    rw [List.cons_append, List.cons_append]
    exact TransBlocks.act st ok t _ hlk ih
  | deact st ok t rest hkm _ ih =>
    rw [List.cons_append, List.cons_append]
    exact TransBlocks.deact st ok t _ hkm ih

theorem handleNewAlerts_transBlocks (σ : Nat → Bool) (cfg : Config) (ts : List String) :
    ∀ acc, TransBlocks cfg acc.tr → TransBlocks cfg (handleNewAlerts σ cfg ts acc).tr := by
  induction ts with
  | nil => intro acc h; exact h
  | cons t rest ih =>
    intro acc h
    rw [handleNewAlerts]
    refine ih _ ?_
    rw [activationStep_tr]
    cases hc : boolLookup acc.st.activeAlertTypes t
    · simp only [hc, if_false, Bool.false_eq_true]
      refine transBlocks_append cfg _ _ h ?_
      refine TransBlocks.act _ (σ acc.k) t [] ?_ TransBlocks.nil
      exact boolLookup_set_self t acc.st.activeAlertTypes
    · simpa using h

theorem goneFold_transBlocks (σ : Nat → Bool) (cfg : Config) (ca : List String)
    (keys : List String) :
    ∀ acc, TransBlocks cfg acc.tr → TransBlocks cfg (goneFold σ cfg ca keys acc).tr := by
  induction keys with
  | nil => intro acc h; exact h
  | cons t rest ih =>
    intro acc h
    rw [goneFold]
    refine ih _ ?_
    rw [deactivationStep_tr]
    cases hc : memStr t ca
    · simp only [hc, if_false, Bool.false_eq_true]
      refine transBlocks_append cfg _ _ h ?_
      refine TransBlocks.deact _ (σ acc.k) t [] ?_ TransBlocks.nil
      exact keyMem_erase_self t acc.st.activeAlertTypes
    · simpa using h

theorem handleGoneAlerts_transBlocks (σ : Nat → Bool) (cfg : Config) (ca : List String)
    (acc : RunAcc) (h : TransBlocks cfg acc.tr) :
    TransBlocks cfg (handleGoneAlerts σ cfg ca acc).tr := by
  unfold handleGoneAlerts
  exact goneFold_transBlocks σ cfg ca _ acc h

/-! Independence of the control flow from persistence outcomes. -/

theorem emitSave_sim (σ₁ σ₂ : Nat → Bool) (a b : RunAcc) (h : AccSim a b) :
    AccSim (emitSave σ₁ a) (emitSave σ₂ b) := by
  obtain ⟨hst, hk, htr⟩ := h
  refine ⟨hst, by simp [emitSave, hk], ?_⟩
  simp [emitSave, stripOk, hst, htr]

theorem emitPlay_sim (p : String) (a b : RunAcc) (h : AccSim a b) :
    AccSim (emitPlay a p) (emitPlay b p) := by
  obtain ⟨hst, hk, htr⟩ := h
  refine ⟨hst, hk, ?_⟩
  simp [emitPlay, stripOk, htr]

theorem activationStep_sim (σ₁ σ₂ : Nat → Bool) (cfg : Config) (t : String) (a b : RunAcc)
    (h : AccSim a b) : AccSim (activationStep σ₁ cfg a t) (activationStep σ₂ cfg b t) := by
  obtain ⟨hst, hk, htr⟩ := h
  unfold activationStep
  rw [hst]
  cases hc : boolLookup b.st.activeAlertTypes t
  · simp only [hc, Bool.false_eq_true, if_false]
    refine emitPlay_sim _ _ _ (emitSave_sim σ₁ σ₂ _ _ ?_)
    exact ⟨by simp [hst], hk, htr⟩
  · simp only [hc, if_true]
    exact ⟨hst, hk, htr⟩

theorem deactivationStep_sim (σ₁ σ₂ : Nat → Bool) (cfg : Config) (ca : List String)
    (t : String) (a b : RunAcc) (h : AccSim a b) :
    AccSim (deactivationStep σ₁ cfg ca a t) (deactivationStep σ₂ cfg ca b t) := by
  obtain ⟨hst, hk, htr⟩ := h
  unfold deactivationStep
  cases hc : memStr t ca
  · simp only [hc, Bool.false_eq_true, if_false]
    refine emitPlay_sim _ _ _ (emitSave_sim σ₁ σ₂ _ _ ?_)
    exact ⟨by simp [hst], hk, htr⟩
  · simp only [hc, if_true]
    exact ⟨hst, hk, htr⟩

theorem handleNewAlerts_sim (σ₁ σ₂ : Nat → Bool) (cfg : Config) (ts : List String) :
    ∀ a b, AccSim a b →
      AccSim (handleNewAlerts σ₁ cfg ts a) (handleNewAlerts σ₂ cfg ts b) := by
  induction ts with
  | nil => intro a b h; exact h
  | cons t rest ih =>
    intro a b h
    rw [handleNewAlerts, handleNewAlerts]
    exact ih _ _ (activationStep_sim σ₁ σ₂ cfg t a b h)

theorem goneFold_sim (σ₁ σ₂ : Nat → Bool) (cfg : Config) (ca : List String)
    (keys : List String) :
    ∀ a b, AccSim a b →
      AccSim (goneFold σ₁ cfg ca keys a) (goneFold σ₂ cfg ca keys b) := by
  induction keys with
  | nil => intro a b h; exact h
  | cons t rest ih =>
    intro a b h
    rw [goneFold, goneFold]
    exact ih _ _ (deactivationStep_sim σ₁ σ₂ cfg ca t a b h)

theorem handleGoneAlerts_sim (σ₁ σ₂ : Nat → Bool) (cfg : Config) (ca : List String)
    (a b : RunAcc) (h : AccSim a b) :
    AccSim (handleGoneAlerts σ₁ cfg ca a) (handleGoneAlerts σ₂ cfg ca b) := by
  unfold handleGoneAlerts
  rw [h.1]
  exact goneFold_sim σ₁ σ₂ cfg ca _ a b h

/-! The reconciler bodies, re-expressed through the shared pieces. -/

theorem v1_run_fst (parse : String → Option Time) (fmt : Time → String) (now : Time)
    (σ : Nat → Bool) (st : State) (ts : List String) (lu : String) (cfg : Config) :
    (checkAndHandleStateChange parse fmt now σ st ts lu cfg).1 =
      (handleGoneAlerts σ cfg ts (handleNewAlerts σ cfg ts
        (tsPhaseAcc σ st (fmt ((parse lu).getD now))))).st := rfl

theorem v1_run_snd (parse : String → Option Time) (fmt : Time → String) (now : Time)
    (σ : Nat → Bool) (st : State) (ts : List String) (lu : String) (cfg : Config) :
    (checkAndHandleStateChange parse fmt now σ st ts lu cfg).2 =
      (handleGoneAlerts σ cfg ts (handleNewAlerts σ cfg ts
        (tsPhaseAcc σ st (fmt ((parse lu).getD now))))).tr := rfl

theorem v3_run_fst (parse : String → Option Time) (fmt : Time → String) (now : Time)
    (σ : Nat → Bool) (st : State) (ts : List String) (alerts : List Alert) (lu : String)
    (cfg : Config) :
    (checkAndHandleStateChangeV3 parse fmt now σ st ts alerts lu cfg).1 =
      (handleGoneAlerts σ cfg ts (handleNewAlerts σ cfg ts
        (tsPhaseAcc σ st (fmt ((parse (relevantLastUpdateOf alerts lu)).getD now))))).st := rfl

theorem v3_run_snd (parse : String → Option Time) (fmt : Time → String) (now : Time)
    (σ : Nat → Bool) (st : State) (ts : List String) (alerts : List Alert) (lu : String)
    (cfg : Config) :
    (checkAndHandleStateChangeV3 parse fmt now σ st ts alerts lu cfg).2 =
      (handleGoneAlerts σ cfg ts (handleNewAlerts σ cfg ts
        (tsPhaseAcc σ st (fmt ((parse (relevantLastUpdateOf alerts lu)).getD now))))).tr := rfl

theorem v2_run_fst (nowUTC : Time) (σ : Nat → Bool) (st : State) (ts : List String)
    (alerts : List Alert) (cfg : Config) :
    (checkAndHandleStateChangeV2 nowUTC σ st ts alerts cfg).1 =
      (handleGoneAlerts σ cfg ts
        (match selectAlert alerts with
         | none => { st := st, k := 0, tr := [] }
         | some a =>
           if boolLookup st.activeAlertTypes a.type then { st := st, k := 0, tr := [] }
           else
             emitPlay (emitSave σ
               { st := { st with
                   activeAlertTypes := assocSet a.type true st.activeAlertTypes,
                   lastPlayed := lastPlayedSetOpt st.lastPlayed a.type nowUTC },
                 k := 0, tr := [] }) (cfg.audioFiles a.type))).st := rfl

theorem tsPhaseAcc_active (σ : Nat → Bool) (st : State) (lu2 : String) :
    (tsPhaseAcc σ st lu2).st.activeAlertTypes = st.activeAlertTypes := by
  unfold tsPhaseAcc
  by_cases h : st.lastUpdate ≠ lu2 <;> simp [h, emitSave]

theorem tsPhaseAcc_lastPlayed (σ : Nat → Bool) (st : State) (lu2 : String) :
    (tsPhaseAcc σ st lu2).st.lastPlayed = st.lastPlayed := by
  unfold tsPhaseAcc
  by_cases h : st.lastUpdate ≠ lu2 <;> simp [h, emitSave]

theorem tsPhaseAcc_lastUpdate (σ : Nat → Bool) (st : State) (lu2 : String) :
    (tsPhaseAcc σ st lu2).st.lastUpdate = lu2 := by
  unfold tsPhaseAcc
  by_cases h : st.lastUpdate ≠ lu2
  · simp [h, emitSave]
  · rw [not_not] at h
    simp [h, emitSave]

theorem tsPhaseAcc_tr (σ : Nat → Bool) (st : State) (lu2 : String) :
    (tsPhaseAcc σ st lu2).tr =
      (if st.lastUpdate ≠ lu2 then [Event.save { st with lastUpdate := lu2 } (σ 0)]
       else []) := by
  unfold tsPhaseAcc
  by_cases h : st.lastUpdate ≠ lu2 <;> simp [h, emitSave]

theorem tsPhaseAcc_transBlocks (σ : Nat → Bool) (cfg : Config) (st : State) (lu2 : String) :
    TransBlocks cfg (tsPhaseAcc σ st lu2).tr := by
  rw [tsPhaseAcc_tr]
  by_cases h : st.lastUpdate ≠ lu2
  · rw [if_pos h]
    exact TransBlocks.lone _ _ _ TransBlocks.nil
  · rw [if_neg h]
    exact TransBlocks.nil

theorem tsPhaseAcc_sim (σ₁ σ₂ : Nat → Bool) (st : State) (lu2 : String) :
    AccSim (tsPhaseAcc σ₁ st lu2) (tsPhaseAcc σ₂ st lu2) := by
  unfold tsPhaseAcc
  by_cases h : st.lastUpdate ≠ lu2
  · rw [if_pos h, if_pos h]
    exact emitSave_sim σ₁ σ₂ _ _ ⟨rfl, rfl, rfl⟩
  · rw [if_neg h, if_neg h]
    exact ⟨rfl, rfl, rfl⟩

theorem v1_boolLookup (parse : String → Option Time) (fmt : Time → String) (now : Time)
    (σ : Nat → Bool) (st : State) (ts : List String) (lu : String) (cfg : Config)
    (x : String) :
    boolLookup (checkAndHandleStateChange parse fmt now σ st ts lu cfg).1.activeAlertTypes x =
      memStr x ts := by
  rw [v1_run_fst]
  exact passes_boolLookup σ cfg ts _ x

theorem v1_keyMem (parse : String → Option Time) (fmt : Time → String) (now : Time)
    (σ : Nat → Bool) (st : State) (ts : List String) (lu : String) (cfg : Config)
    (x : String) :
    keyMem (checkAndHandleStateChange parse fmt now σ st ts lu cfg).1.activeAlertTypes x =
      memStr x ts := by
  rw [v1_run_fst]
  exact passes_keyMem σ cfg ts _ x

theorem v1_lastUpdate (parse : String → Option Time) (fmt : Time → String) (now : Time)
    (σ : Nat → Bool) (st : State) (ts : List String) (lu : String) (cfg : Config) :
    (checkAndHandleStateChange parse fmt now σ st ts lu cfg).1.lastUpdate =
      fmt ((parse lu).getD now) := by
  rw [v1_run_fst, passes_lastUpdate, tsPhaseAcc_lastUpdate]

theorem v3_boolLookup (parse : String → Option Time) (fmt : Time → String) (now : Time)
    (σ : Nat → Bool) (st : State) (ts : List String) (alerts : List Alert) (lu : String)
    (cfg : Config) (x : String) :
    boolLookup
        (checkAndHandleStateChangeV3 parse fmt now σ st ts alerts lu cfg).1.activeAlertTypes x =
      memStr x ts := by
  rw [v3_run_fst]
  exact passes_boolLookup σ cfg ts _ x

theorem v3_lastUpdate (parse : String → Option Time) (fmt : Time → String) (now : Time)
    (σ : Nat → Bool) (st : State) (ts : List String) (alerts : List Alert) (lu : String)
    (cfg : Config) :
    (checkAndHandleStateChangeV3 parse fmt now σ st ts alerts lu cfg).1.lastUpdate =
      fmt ((parse (relevantLastUpdateOf alerts lu)).getD now) := by
  rw [v3_run_fst, passes_lastUpdate, tsPhaseAcc_lastUpdate]

/-! Small trace-projection lemmas. -/

theorem playsOf_append (l₁ l₂ : List Event) :
    playsOf (l₁ ++ l₂) = playsOf l₁ ++ playsOf l₂ := by
  simp [playsOf, List.filterMap_append]

theorem savesOf_append (l₁ l₂ : List Event) :
    savesOf (l₁ ++ l₂) = savesOf l₁ ++ savesOf l₂ := by
  simp [savesOf, List.filterMap_append]

theorem memStr_true_iff (x : String) (l : List String) : memStr x l = true ↔ x ∈ l := by
  induction l with
  | nil => simp [memStr]
  | cons s rest ih =>
    by_cases h : s = x
    · subst h; simp [memStr]
    · have h' : ¬ x = s := fun hh => h hh.symm
      simp [memStr, h, h', ih]

theorem playsOf_tsPhaseAcc (σ : Nat → Bool) (st : State) (lu2 : String) :
    playsOf (tsPhaseAcc σ st lu2).tr = [] := by
  rw [tsPhaseAcc_tr]
  by_cases h : st.lastUpdate ≠ lu2
  · rw [if_pos h]; rfl
  · rw [if_neg h]; rfl

theorem gone_if_char (m : List (String × Bool)) (ts : List String) (x : String) :
    (if keyMem m x && !memStr x ts then false else boolLookup m x) =
      (boolLookup m x && memStr x ts) := by
  cases hts : memStr x ts
  · cases hkm : keyMem m x
    · simp [hkm, hts, boolLookup_of_not_keyMem m x hkm]
    · simp [hkm, hts]
  · simp [hts]

/-! The claims. -/

/-- C5 counterexample: the claim is false on the code in two places, at
concrete inputs.  A present-but-unparsable state file is not fatal at load:
V1 `main` (src/main.go:83-91) logs with `log.Printf` and continues with a
substituted default state.  And the default state `loadState` returns for an
absent file has `lastUpdate = ""` — the `"неизвестно"` ("unknown") sentinel is
produced only by `main`'s error path, which an absent file does not take. -/
theorem c5_counterexample :
    mainLoadPhase (ReadResult.found none) =
      some { activeAlertTypes := [], lastUpdate := "неизвестно", lastPlayed := some [] } ∧
    loadState ReadResult.notExist =
      Except.ok { activeAlertTypes := [], lastUpdate := "", lastPlayed := none } :=
  ⟨rfl, rfl⟩

/-- C5 (amended): `loadState` on an absent state file returns a default state
with no active alerts, an empty-string `lastUpdate` (not the "unknown"
sentinel) and a nil `lastPlayed`, and the missing file is not an error; a
present-but-unparsable state file yields a load error which `main` handles
non-fatally, logging and substituting a fresh default whose `lastUpdate` is
the "unknown" sentinel; a decodable file loads its decoded state with a nil
`lastPlayed` normalized to an empty map. -/
theorem c5_load_behaviour :
    loadState ReadResult.notExist =
      Except.ok { activeAlertTypes := [], lastUpdate := "", lastPlayed := none } ∧
    loadState (ReadResult.found none) = Except.error () ∧
    mainLoadPhase (ReadResult.found none) =
      some { activeAlertTypes := [], lastUpdate := "неизвестно", lastPlayed := some [] } ∧
    (∀ d : StoredState, mainLoadPhase (ReadResult.found (some d)) = some (loadStateOk d)) ∧
    mainLoadPhase ReadResult.notExist =
      some { activeAlertTypes := [], lastUpdate := "", lastPlayed := none } :=
  ⟨rfl, rfl, rfl, fun _ => rfl, rfl⟩

/-- C9: evaluation of `loadState` at the failing input.  For an absent state
file the early return at src/main.go:263 happens before the nil-`LastPlayed`
check at src/main.go:269-271, so the returned state's `lastPlayed` is the nil
map — the later write `state.LastPlayed[alertType] = ...`
(src/main.go:396) then panics in Go. -/
theorem c9_absent_file_lastPlayed_nil :
    ∃ st, loadState ReadResult.notExist = Except.ok st ∧ st.lastPlayed = none :=
  ⟨{ activeAlertTypes := [], lastUpdate := "", lastPlayed := none }, rfl, rfl⟩

/-- C7: the repeat scheduler is a complete no-op — the input state is
returned unchanged and no event is emitted — unless the configuration
enables repeat audio, names a non-empty repeat cue and a positive repeat
interval (guard src/unnamed/part_000:471-473, identically src/main.go:803-805;
the V1 guard src/main.go:367-369 has no enable flag to consult). -/
theorem c7_repeat_guard_noop (parse : String → Option Time) (now : Time) (σ : Nat → Bool)
    (st : State) (cfg : Config)
    (h : cfg.enableRepeatAudio = false ∨ cfg.repeatAudioFile = "" ∨ cfg.repeatIntervalMin ≤ 0) :
    checkAndPlayRepeatAudio parse now σ st cfg = (st, []) := by
  rcases h with he | hf | hi
  · simp [checkAndPlayRepeatAudio, he]
  · simp [checkAndPlayRepeatAudio, hf]
  · simp [checkAndPlayRepeatAudio, hi]

/-- C7 witness: the guard theorem applied at a closed input (repeat audio
disabled). -/
theorem c7_repeat_guard_noop_witness :
    checkAndPlayRepeatAudio parseFix 240 (fun _ => true)
      { activeAlertTypes := [("AIR", true)], lastUpdate := "TS", lastPlayed := some [] }
      { cfgFix with enableRepeatAudio := false } =
      ({ activeAlertTypes := [("AIR", true)], lastUpdate := "TS", lastPlayed := some [] }, []) :=
  c7_repeat_guard_noop parseFix 240 (fun _ => true) _ _ (Or.inl rfl)

/-- C8: saving any state and loading it back yields an equivalent state —
equal up to the pinned normalization that an empty or nil `lastPlayed`
persists as an absent (null) or empty map and reloads as an initialized empty
map, never as a parse error.  Both `saveState` variants are covered: V1
(src/main.go:275-285, plain marshal) and V2 (src/main.go:701-721, which
nullifies an empty map before writing). -/
theorem c8_save_load_round_trip (s : State) :
    loadState (ReadResult.found (some (saveDocV1 s))) =
      Except.ok (loadStateOk (saveDocV1 s)) ∧
    stateEquiv (loadStateOk (saveDocV1 s)) s ∧
    loadState (ReadResult.found (some (saveStateV2 s).1)) =
      Except.ok (loadStateOk (saveStateV2 s).1) ∧
    stateEquiv (loadStateOk (saveStateV2 s).1) s ∧
    (saveStateV2 { s with lastPlayed := some [] }).1.lastPlayed = none ∧
    (loadStateOk (saveStateV2 { s with lastPlayed := some [] }).1).lastPlayed = some [] := by
  refine ⟨rfl, ?_, rfl, ?_, ?_, ?_⟩
  · rcases hlp : s.lastPlayed with _ | l
    · simp [saveDocV1, loadStateOk, decodeState, stateEquiv, lpNorm, hlp]
    · simp [saveDocV1, loadStateOk, decodeState, stateEquiv, lpNorm, hlp]
  · rcases hlp : s.lastPlayed with _ | l
    · simp [saveStateV2, loadStateOk, decodeState, stateEquiv, lpNorm, hlp]
    · cases l with
      | nil => simp [saveStateV2, loadStateOk, decodeState, stateEquiv, lpNorm, hlp]
      | cons p rest => simp [saveStateV2, loadStateOk, decodeState, stateEquiv, lpNorm, hlp]
  · simp [saveStateV2]
  · simp [saveStateV2, loadStateOk, decodeState]

/-- C10: decoding a body with zero regions makes `fetchAlerts` return an
empty alert list, an empty-string timestamp and no error
(src/main.go:222-229); the poll then proceeds as an alert-free observation:
the empty timestamp fails RFC3339 parsing in `convertToLocalTime` and passes
through unchanged, and the V1 reconciler substitutes the current time for it
and clears every alert type, rather than treating the poll as a fetch
failure. -/
theorem c10_zero_regions (parseRFC parseLocal : String → Option Time)
    (fmtLocal : Time → String) (now : Time) (σ : Nat → Bool) (st : State) (cfg : Config)
    (hrfc : parseRFC "" = none) (hloc : parseLocal "" = none) :
    fetchAlertsDecoded [] = Except.ok ([], "") ∧
    convertToLocalTime parseRFC fmtLocal "" false = "" ∧
    (checkAndHandleStateChange parseLocal fmtLocal now σ st [] "" cfg).1.lastUpdate =
      fmtLocal now ∧
    (∀ x, boolLookup
        (checkAndHandleStateChange parseLocal fmtLocal now σ st [] "" cfg).1.activeAlertTypes
        x = false) := by
  refine ⟨rfl, ?_, ?_, ?_⟩
  · unfold convertToLocalTime
    rw [hrfc]
  · rw [v1_lastUpdate, hloc]
    rfl
  · intro x
    rw [v1_boolLookup]
    rfl

/-- C10 witness: the theorem applied at closed inputs, discharging the two
parse-failure hypotheses on the concrete parser. -/
theorem c10_zero_regions_witness :
    fetchAlertsDecoded [] = Except.ok ([], "") ∧
    convertToLocalTime parseFix fmtFix "" false = "" ∧
    (checkAndHandleStateChange parseFix fmtFix 7 (fun _ => true)
      { activeAlertTypes := [("AIR", true)], lastUpdate := "F100", lastPlayed := some [] }
      [] "" cfgFix).1.lastUpdate = fmtFix 7 ∧
    (∀ x, boolLookup
        (checkAndHandleStateChange parseFix fmtFix 7 (fun _ => true)
          { activeAlertTypes := [("AIR", true)], lastUpdate := "F100", lastPlayed := some [] }
          [] "" cfgFix).1.activeAlertTypes x = false) :=
  c10_zero_regions parseFix parseFix fmtFix 7 (fun _ => true) _ cfgFix (by decide) (by decide)

/-- C6: reconciling the same observation (same alert-type set, same reported
timestamp) twice in a row is idempotent — the second call plays no cue and
leaves `activeAlertTypes` unchanged (indeed the state's active map is
literally the first call's), whatever the wall clock or persistence outcomes
of the second call. -/
theorem c6_reconcile_idempotent (parse : String → Option Time) (fmt : Time → String)
    (now₁ now₂ : Time) (σ₁ σ₂ : Nat → Bool) (st : State) (ts : List String) (lu : String)
    (cfg : Config) :
    playsOf (checkAndHandleStateChange parse fmt now₂ σ₂
      (checkAndHandleStateChange parse fmt now₁ σ₁ st ts lu cfg).1 ts lu cfg).2 = [] ∧
    (checkAndHandleStateChange parse fmt now₂ σ₂
      (checkAndHandleStateChange parse fmt now₁ σ₁ st ts lu cfg).1 ts lu cfg).1.activeAlertTypes
      = (checkAndHandleStateChange parse fmt now₁ σ₁ st ts lu cfg).1.activeAlertTypes := by
  have hb2 : ∀ x,
      boolLookup (tsPhaseAcc σ₂ (checkAndHandleStateChange parse fmt now₁ σ₁ st ts lu cfg).1
        (fmt ((parse lu).getD now₂))).st.activeAlertTypes x = memStr x ts := by
    intro x
    rw [tsPhaseAcc_active]
    exact v1_boolLookup parse fmt now₁ σ₁ st ts lu cfg x
  have hk2 : ∀ x,
      keyMem (tsPhaseAcc σ₂ (checkAndHandleStateChange parse fmt now₁ σ₁ st ts lu cfg).1
        (fmt ((parse lu).getD now₂))).st.activeAlertTypes x = memStr x ts := by
    intro x
    rw [tsPhaseAcc_active]
    exact v1_keyMem parse fmt now₁ σ₁ st ts lu cfg x
  have hnoop := passes_noop σ₂ cfg ts _ hb2 hk2
  constructor
  · rw [v1_run_snd, hnoop]
    exact playsOf_tsPhaseAcc σ₂ _ _
  · rw [v1_run_fst, hnoop, tsPhaseAcc_active]

/-- C2: for every poll of the V3 reconciler, the relevant timestamp is the
first alert's own `lastUpdate` when the observation has at least one alert
and the region-level timestamp otherwise (`relevantLastUpdateOf`); it is
parsed as RFC3339 with the current UTC time substituted on failure; and
whenever its rendering differs from the persisted `lastUpdate`, the state is
updated and saved as the very first emitted event — before and independent of
any alert-type transition — while processing continues (the active set is
still reconciled to the observation). -/
theorem c2_relevant_timestamp_update (parse : String → Option Time) (fmt : Time → String)
    (now : Time) (σ : Nat → Bool) (st : State) (ts : List String) (alerts : List Alert)
    (lu : String) (cfg : Config)
    (hne : st.lastUpdate ≠ fmt ((parse (relevantLastUpdateOf alerts lu)).getD now)) :
    (checkAndHandleStateChangeV3 parse fmt now σ st ts alerts lu cfg).1.lastUpdate =
      fmt ((parse (relevantLastUpdateOf alerts lu)).getD now) ∧
    (checkAndHandleStateChangeV3 parse fmt now σ st ts alerts lu cfg).2.head? =
      some (Event.save
        { st with lastUpdate := fmt ((parse (relevantLastUpdateOf alerts lu)).getD now) }
        (σ 0)) ∧
    (∀ x, boolLookup
        (checkAndHandleStateChangeV3 parse fmt now σ st ts alerts lu cfg).1.activeAlertTypes
        x = memStr x ts) := by
  refine ⟨v3_lastUpdate parse fmt now σ st ts alerts lu cfg, ?_,
    fun x => v3_boolLookup parse fmt now σ st ts alerts lu cfg x⟩
  rw [v3_run_snd]
  obtain ⟨s, hs⟩ := passes_tr σ cfg ts
    (tsPhaseAcc σ st (fmt ((parse (relevantLastUpdateOf alerts lu)).getD now)))
  rw [hs, tsPhaseAcc_tr, if_pos hne]
  rfl

/-- C2 witness: the theorem applied at a closed input — one alert whose own
timestamp parses — discharging the changed-timestamp hypothesis. -/
theorem c2_relevant_timestamp_update_witness :
    (checkAndHandleStateChangeV3 parseFix fmtFix 7 (fun _ => true)
      { activeAlertTypes := [], lastUpdate := "old", lastPlayed := some [] }
      ["AIR"] [{ type := "AIR", lastUpdate := "TS" }] "region" cfgFix).1.lastUpdate =
      fmtFix ((parseFix (relevantLastUpdateOf [{ type := "AIR", lastUpdate := "TS" }]
        "region")).getD 7) ∧
    (checkAndHandleStateChangeV3 parseFix fmtFix 7 (fun _ => true)
      { activeAlertTypes := [], lastUpdate := "old", lastPlayed := some [] }
      ["AIR"] [{ type := "AIR", lastUpdate := "TS" }] "region" cfgFix).2.head? =
      some (Event.save
        { activeAlertTypes := [], lastUpdate := fmtFix ((parseFix (relevantLastUpdateOf
            [{ type := "AIR", lastUpdate := "TS" }] "region")).getD 7),
          lastPlayed := some [] } true) ∧
    (∀ x, boolLookup
        (checkAndHandleStateChangeV3 parseFix fmtFix 7 (fun _ => true)
          { activeAlertTypes := [], lastUpdate := "old", lastPlayed := some [] }
          ["AIR"] [{ type := "AIR", lastUpdate := "TS" }] "region" cfgFix).1.activeAlertTypes
        x = memStr x ["AIR"]) :=
  c2_relevant_timestamp_update parseFix fmtFix 7 (fun _ => true) _ _ _ _ cfgFix (by decide)

/-- C4: on both reconciler variants whose write sites the claim cites (V1 and
V3), every emitted trace consists of persist-then-cue blocks — each played
cue is immediately preceded by a `saveState` of the state already carrying
the transition (the activation save has the type active, the deactivation
save has its key removed) — and the whole control flow is independent of
persistence outcomes: runs under any two write oracles produce the same final
state and the same outcome-erased trace, so a failed save (which Go only
logs) never blocks the cue. -/
theorem c4_persist_before_cue (parse : String → Option Time) (fmt : Time → String)
    (now : Time) (σ σ' : Nat → Bool) (st : State) (ts : List String) (alerts : List Alert)
    (lu : String) (cfg : Config) :
    TransBlocks cfg (checkAndHandleStateChange parse fmt now σ st ts lu cfg).2 ∧
    TransBlocks cfg (checkAndHandleStateChangeV3 parse fmt now σ st ts alerts lu cfg).2 ∧
    (checkAndHandleStateChange parse fmt now σ st ts lu cfg).1 =
      (checkAndHandleStateChange parse fmt now σ' st ts lu cfg).1 ∧
    (checkAndHandleStateChange parse fmt now σ st ts lu cfg).2.map stripOk =
      (checkAndHandleStateChange parse fmt now σ' st ts lu cfg).2.map stripOk ∧
    (checkAndHandleStateChangeV3 parse fmt now σ st ts alerts lu cfg).1 =
      (checkAndHandleStateChangeV3 parse fmt now σ' st ts alerts lu cfg).1 ∧
    (checkAndHandleStateChangeV3 parse fmt now σ st ts alerts lu cfg).2.map stripOk =
      (checkAndHandleStateChangeV3 parse fmt now σ' st ts alerts lu cfg).2.map stripOk := by
  have hsim1 : AccSim
      (handleGoneAlerts σ cfg ts (handleNewAlerts σ cfg ts
        (tsPhaseAcc σ st (fmt ((parse lu).getD now)))))
      (handleGoneAlerts σ' cfg ts (handleNewAlerts σ' cfg ts
        (tsPhaseAcc σ' st (fmt ((parse lu).getD now))))) :=
    handleGoneAlerts_sim σ σ' cfg ts _ _
      (handleNewAlerts_sim σ σ' cfg ts _ _ (tsPhaseAcc_sim σ σ' st _))
  have hsim3 : AccSim
      (handleGoneAlerts σ cfg ts (handleNewAlerts σ cfg ts
        (tsPhaseAcc σ st (fmt ((parse (relevantLastUpdateOf alerts lu)).getD now)))))
      (handleGoneAlerts σ' cfg ts (handleNewAlerts σ' cfg ts
        (tsPhaseAcc σ' st (fmt ((parse (relevantLastUpdateOf alerts lu)).getD now))))) :=
    handleGoneAlerts_sim σ σ' cfg ts _ _
      (handleNewAlerts_sim σ σ' cfg ts _ _ (tsPhaseAcc_sim σ σ' st _))
  refine ⟨?_, ?_, ?_, ?_, ?_, ?_⟩
  · rw [v1_run_snd]
    exact handleGoneAlerts_transBlocks σ cfg ts _
      (handleNewAlerts_transBlocks σ cfg ts _ (tsPhaseAcc_transBlocks σ cfg st _))
  · rw [v3_run_snd]
    exact handleGoneAlerts_transBlocks σ cfg ts _
      (handleNewAlerts_transBlocks σ cfg ts _ (tsPhaseAcc_transBlocks σ cfg st _))
  · rw [v1_run_fst, v1_run_fst, hsim1.1]
  · rw [v1_run_snd, v1_run_snd, hsim1.2.2]
  · rw [v3_run_fst, v3_run_fst, hsim3.1]
  · rw [v3_run_snd, v3_run_snd, hsim3.2.2]

/-- C1 counterexample: the claim quantifies over the reconciler variants it
cites, but the V2 reconciler (src/main.go:751-800) activates only its single
selected alert (preferring type "AIR").  At a concrete observation holding
both a FIRE and an AIR alert, starting from an empty state, "FIRE" is in the
observed type set yet is not active after one call. -/
theorem c1_counterexample_v2_drops_observed_type :
    memStr "FIRE"
      (observedTypes [{ type := "FIRE", lastUpdate := "x" },
        { type := "AIR", lastUpdate := "y" }]) = true ∧
    boolLookup (checkAndHandleStateChangeV2 0 (fun _ => true)
      { activeAlertTypes := [], lastUpdate := "u", lastPlayed := some [] }
      (observedTypes [{ type := "FIRE", lastUpdate := "x" },
        { type := "AIR", lastUpdate := "y" }])
      [{ type := "FIRE", lastUpdate := "x" }, { type := "AIR", lastUpdate := "y" }]
      cfgFix).1.activeAlertTypes "FIRE" = false := by
  constructor
  · decide
  · decide

/-- C1 (amended): after one reconciler call, for the variants that iterate
over every observed type — V1 (src/main.go:344-363) and V3
(src/unnamed/part_000:448-467) — `activeAlertTypes` equals exactly the set of
alert types present in the observation (both as stored truth values and as
key set), with the type's activation cue played for every newly present type
and the shared cleared cue played for every previously active type now
absent.  The V2 variant (src/main.go:751-800) instead activates only its
single selected alert: its resulting membership is the previous one, extended
by the selected type, restricted to the observed set. -/
theorem c1_active_set_after_reconcile :
    (∀ (parse : String → Option Time) (fmt : Time → String) (now : Time) (σ : Nat → Bool)
        (st : State) (ts : List String) (lu : String) (cfg : Config) (x : String),
      boolLookup
          (checkAndHandleStateChange parse fmt now σ st ts lu cfg).1.activeAlertTypes x =
        memStr x ts ∧
      keyMem (checkAndHandleStateChange parse fmt now σ st ts lu cfg).1.activeAlertTypes x =
        memStr x ts) ∧
    (∀ (parse : String → Option Time) (fmt : Time → String) (now : Time) (σ : Nat → Bool)
        (st : State) (ts : List String) (alerts : List Alert) (lu : String) (cfg : Config)
        (x : String),
      boolLookup
          (checkAndHandleStateChangeV3 parse fmt now σ st ts alerts lu cfg).1.activeAlertTypes
          x = memStr x ts ∧
      keyMem
          (checkAndHandleStateChangeV3 parse fmt now σ st ts alerts lu cfg).1.activeAlertTypes
          x = memStr x ts) ∧
    (∀ (parse : String → Option Time) (fmt : Time → String) (now : Time) (σ : Nat → Bool)
        (st : State) (ts : List String) (lu : String) (cfg : Config) (x : String),
      memStr x ts = true → boolLookup st.activeAlertTypes x = false →
      Event.play (cfg.audioFiles x) ∈
        (checkAndHandleStateChange parse fmt now σ st ts lu cfg).2) ∧
    (∀ (parse : String → Option Time) (fmt : Time → String) (now : Time) (σ : Nat → Bool)
        (st : State) (ts : List String) (lu : String) (cfg : Config) (x : String),
      keyMem st.activeAlertTypes x = true → memStr x ts = false →
      Event.play cfg.alertOnEmpty ∈
        (checkAndHandleStateChange parse fmt now σ st ts lu cfg).2) ∧
    (∀ (now : Time) (σ : Nat → Bool) (st : State) (ts : List String) (alerts : List Alert)
        (cfg : Config) (x : String),
      boolLookup (checkAndHandleStateChangeV2 now σ st ts alerts cfg).1.activeAlertTypes x =
        ((boolLookup st.activeAlertTypes x || selMatches alerts x) && memStr x ts)) := by
  refine ⟨?_, ?_, ?_, ?_, ?_⟩
  · intro parse fmt now σ st ts lu cfg x
    exact ⟨v1_boolLookup parse fmt now σ st ts lu cfg x,
      v1_keyMem parse fmt now σ st ts lu cfg x⟩
  · intro parse fmt now σ st ts alerts lu cfg x
    refine ⟨v3_boolLookup parse fmt now σ st ts alerts lu cfg x, ?_⟩
    rw [v3_run_fst]
    exact passes_keyMem σ cfg ts _ x
  · intro parse fmt now σ st ts lu cfg x hmem hlk
    rw [v1_run_snd]
    refine passes_play_act σ cfg ts _ x hmem ?_
    rw [tsPhaseAcc_active]
    exact hlk
  · intro parse fmt now σ st ts lu cfg x hkm hmem
    rw [v1_run_snd]
    refine passes_play_deact σ cfg ts _ x ?_ hmem
    rw [tsPhaseAcc_active]
    exact hkm
  · intro now σ st ts alerts cfg x
    rw [v2_run_fst]
    cases hsel : selectAlert alerts with
    | none =>
      simp only [hsel, selMatches]
      unfold handleGoneAlerts
      rw [goneFold_boolLookup, memStr_map_fst_eq_keyMem]
      have := gone_if_char st.activeAlertTypes ts x
      simpa using this
    | some a =>
      simp only [hsel, selMatches]
      cases hb : boolLookup st.activeAlertTypes a.type
      · simp only [hb, Bool.false_eq_true, if_false]
        unfold handleGoneAlerts
        rw [goneFold_boolLookup, memStr_map_fst_eq_keyMem]
        simp only [emitPlay, emitSave]
        rw [gone_if_char]
        by_cases hx : a.type = x
        · subst hx
          simp [boolLookup_set_self]
        · have hx' : x ≠ a.type := fun hh => hx hh.symm
          simp [boolLookup_set_ne x a.type hx', hx]
      · simp only [hb, if_true]
        unfold handleGoneAlerts
        rw [goneFold_boolLookup, memStr_map_fst_eq_keyMem]
        rw [gone_if_char]
        by_cases hx : a.type = x
        · subst hx
          simp [hb]
        · simp [hx]

/-- C1 witness: the amended characterization applied at closed inputs — one
observed type "AIR" over a state with active type "OLD" for V1 (activation
and cleared cues both fire), and the two-alert observation of the
counterexample for V2. -/
theorem c1_active_set_after_reconcile_witness :
    boolLookup (checkAndHandleStateChange parseFix fmtFix 7 (fun _ => true)
      { activeAlertTypes := [("OLD", true)], lastUpdate := "old", lastPlayed := some [] }
      ["AIR"] "TS" cfgFix).1.activeAlertTypes "AIR" = memStr "AIR" ["AIR"] ∧
    Event.play (cfgFix.audioFiles "AIR") ∈
      (checkAndHandleStateChange parseFix fmtFix 7 (fun _ => true)
        { activeAlertTypes := [("OLD", true)], lastUpdate := "old", lastPlayed := some [] }
        ["AIR"] "TS" cfgFix).2 ∧
    Event.play cfgFix.alertOnEmpty ∈
      (checkAndHandleStateChange parseFix fmtFix 7 (fun _ => true)
        { activeAlertTypes := [("OLD", true)], lastUpdate := "old", lastPlayed := some [] }
        ["AIR"] "TS" cfgFix).2 ∧
    boolLookup (checkAndHandleStateChangeV2 0 (fun _ => true)
      { activeAlertTypes := [], lastUpdate := "u", lastPlayed := some [] }
      ["FIRE", "AIR"]
      [{ type := "FIRE", lastUpdate := "x" }, { type := "AIR", lastUpdate := "y" }]
      cfgFix).1.activeAlertTypes "FIRE" =
      ((boolLookup ([] : List (String × Bool)) "FIRE" ||
        selMatches [{ type := "FIRE", lastUpdate := "x" },
          { type := "AIR", lastUpdate := "y" }] "FIRE") && memStr "FIRE" ["FIRE", "AIR"]) :=
  ⟨(c1_active_set_after_reconcile.1 parseFix fmtFix 7 (fun _ => true) _ ["AIR"] "TS" cfgFix
      "AIR").1,
    c1_active_set_after_reconcile.2.2.1 parseFix fmtFix 7 (fun _ => true) _ ["AIR"] "TS"
      cfgFix "AIR" (by decide) (by decide),
    c1_active_set_after_reconcile.2.2.2.1 parseFix fmtFix 7 (fun _ => true) _ ["AIR"] "TS"
      cfgFix "OLD" (by decide) (by decide),
    c1_active_set_after_reconcile.2.2.2.2 0 (fun _ => true) _ ["FIRE", "AIR"] _ cfgFix "FIRE"⟩

/-! The repeat scheduler, characterized. -/

theorem repeatDue_congr (parse : String → Option Time) (i : Int) (now : Time) (lu : String)
    (lp lp' : List (String × Time)) (t : String)
    (h : assocLookup t lp = assocLookup t lp') :
    repeatDue parse i now lu lp t = repeatDue parse i now lu lp' t := by
  unfold repeatDue
  cases parse lu <;> simp [h]

theorem repeatStep_eq (parse : String → Option Time) (now : Time) (σ : Nat → Bool)
    (cfg : Config) (acc : RunAcc) (t : String) (lpc : List (String × Time)) (lu0 : String)
    (hlp : acc.st.lastPlayed = some lpc) (hlu : acc.st.lastUpdate = lu0) :
    repeatStep parse now σ cfg acc t =
      (if repeatDue parse cfg.repeatIntervalMin now lu0 lpc t then
        emitSave σ { emitPlay acc cfg.repeatAudioFile with
          st := { acc.st with lastPlayed := some (assocSet t (trunc60 now) lpc) } }
      else acc) := by
  unfold repeatStep repeatDue
  rw [hlu, hlp]
  cases hp : parse lu0 with
  | none => simp
  | some t0 =>
    by_cases he : elapsedMinutesOf now t0 < 0
    · have hd : decide (0 ≤ elapsedMinutesOf now t0) = false :=
        decide_eq_false (not_le.mpr he)
      simp [he, hd]
    · have hd : decide (0 ≤ elapsedMinutesOf now t0) = true :=
        decide_eq_true (not_lt.mp he)
      by_cases hmod : Int.tmod (elapsedMinutesOf now t0) cfg.repeatIntervalMin = 0
      · by_cases hsup : assocLookup t lpc = some (trunc60 now)
        · simp [he, hd, hmod, hsup]
        · simp [he, hd, hmod, hsup, emitPlay, emitSave, hlp, lastPlayedSetOpt]
      · simp [he, hd, hmod]

theorem repeatFold_char (parse : String → Option Time) (now : Time) (σ : Nat → Bool)
    (cfg : Config) (lu0 : String) (lp0 : List (String × Time)) :
    ∀ (keys : List String) (acc : RunAcc) (lpc : List (String × Time)),
      acc.st.lastPlayed = some lpc →
      acc.st.lastUpdate = lu0 →
      keys.Nodup →
      (∀ x, memStr x keys = true → assocLookup x lpc = assocLookup x lp0) →
      (repeatFold parse now σ cfg keys acc).st.activeAlertTypes = acc.st.activeAlertTypes ∧
      (repeatFold parse now σ cfg keys acc).st.lastUpdate = lu0 ∧
      (∃ lpf, (repeatFold parse now σ cfg keys acc).st.lastPlayed = some lpf ∧
        ∀ x, assocLookup x lpf =
          (if memStr x keys && repeatDue parse cfg.repeatIntervalMin now lu0 lp0 x
           then some (trunc60 now) else assocLookup x lpc)) ∧
      playsOf (repeatFold parse now σ cfg keys acc).tr =
        playsOf acc.tr ++ List.replicate
          ((keys.filter (repeatDue parse cfg.repeatIntervalMin now lu0 lp0)).length)
          cfg.repeatAudioFile ∧
      (savesOf (repeatFold parse now σ cfg keys acc).tr).length =
        (savesOf acc.tr).length +
          (keys.filter (repeatDue parse cfg.repeatIntervalMin now lu0 lp0)).length := by
  intro keys
  induction keys with
  | nil =>
    intro acc lpc hlp hlu _ _
    refine ⟨rfl, hlu, ⟨lpc, hlp, fun x => by simp [memStr]⟩, by simp [repeatFold],
      by simp [repeatFold]⟩
  | cons t rest ih =>
    intro acc lpc hlp hlu hnd hagree
    have hndr := (List.nodup_cons.mp hnd).2
    have htnr : t ∉ rest := (List.nodup_cons.mp hnd).1
    have htm : memStr t (t :: rest) = true := by simp [memStr]
    have hdt : repeatDue parse cfg.repeatIntervalMin now lu0 lp0 t =
        repeatDue parse cfg.repeatIntervalMin now lu0 lpc t :=
      repeatDue_congr parse _ now lu0 lp0 lpc t (hagree t htm).symm
    rw [repeatFold, repeatStep_eq parse now σ cfg acc t lpc lu0 hlp hlu]
    cases hdue : repeatDue parse cfg.repeatIntervalMin now lu0 lpc t
    · simp only [Bool.false_eq_true, if_false]
      have hagree' : ∀ x, memStr x rest = true → assocLookup x lpc = assocLookup x lp0 := by
        intro x hx
        refine hagree x ?_
        by_cases hxt : t = x <;> simp [memStr, hxt, hx]
      obtain ⟨ha, hl, ⟨lpf, hlpf, hchar⟩, hpl, hsv⟩ := ih acc lpc hlp hlu hndr hagree'
      have hd0 : repeatDue parse cfg.repeatIntervalMin now lu0 lp0 t = false := by
        rw [hdt]; exact hdue
      refine ⟨ha, hl, ⟨lpf, hlpf, ?_⟩, ?_, ?_⟩
      · intro x
        rw [hchar x]
        by_cases hxt : t = x
        · subst hxt
          simp [memStr, hd0]
        · simp [memStr, hxt]
      · rw [hpl]
        simp [List.filter, hd0]
      · rw [hsv]
        simp [List.filter, hd0]
    · rw [if_pos rfl]
      have hd0 : repeatDue parse cfg.repeatIntervalMin now lu0 lp0 t = true := by
        rw [hdt]; exact hdue
      set lpc' := assocSet t (trunc60 now) lpc with hlpc'
      set acc' := emitSave σ { emitPlay acc cfg.repeatAudioFile with
        st := { acc.st with lastPlayed := some lpc' } } with hacc'
      have hlp' : acc'.st.lastPlayed = some lpc' := by simp [hacc', emitSave, emitPlay]
      have hlu' : acc'.st.lastUpdate = lu0 := by simp [hacc', emitSave, emitPlay, hlu]
      have hagree' : ∀ x, memStr x rest = true → assocLookup x lpc' = assocLookup x lp0 := by
        intro x hx
        have hxt : x ≠ t := by
          intro hh
          subst hh
          exact htnr ((memStr_true_iff x rest).mp hx)
        rw [hlpc', assocLookup_set_ne x t hxt]
        refine hagree x ?_
        by_cases hxt2 : t = x <;> simp [memStr, hxt2, hx]
      obtain ⟨ha, hl, ⟨lpf, hlpf, hchar⟩, hpl, hsv⟩ := ih acc' lpc' hlp' hlu' hndr hagree'
      have hactive : acc'.st.activeAlertTypes = acc.st.activeAlertTypes := by
        simp [hacc', emitSave, emitPlay]
      refine ⟨by rw [ha, hactive], hl, ⟨lpf, hlpf, ?_⟩, ?_, ?_⟩
      · intro x
        rw [hchar x]
        by_cases hxt : t = x
        · subst hxt
          have hmr : memStr t rest = false := by
            cases hmr : memStr t rest
            · rfl
            · exact absurd ((memStr_true_iff t rest).mp hmr) htnr
          simp [memStr, hd0, hmr, hlpc', assocLookup_set_self]
        · have hxt' : x ≠ t := fun hh => hxt hh.symm
          simp [memStr, hxt, hlpc', assocLookup_set_ne x t hxt']
      · rw [hpl]
        have : playsOf acc'.tr = playsOf acc.tr ++ [cfg.repeatAudioFile] := by
          simp [hacc', emitSave, emitPlay, playsOf, List.filterMap_append]
        rw [this]
        simp [List.filter, hd0, List.replicate_succ]
      · rw [hsv]
        have : (savesOf acc'.tr).length = (savesOf acc.tr).length + 1 := by
          simp [hacc', emitSave, emitPlay, savesOf, List.filterMap_append]
        rw [this]
        simp [List.filter, hd0]
        omega

/-- C3: with the repeat preconditions met, during one scheduler run over the
active alert types (src/unnamed/part_000:470-506; src/main.go:371-399 is the
same loop body), the repeat cue fires for a type exactly when the persisted
`lastUpdate` parses, the elapsed whole minutes are non-negative and divisible
by the repeat interval, and `lastPlayed` does not already record the current
minute boundary for that type (`repeatDue`): the cue is played once per due
type and for exactly the due types `lastPlayed` is set to now truncated to
the minute, each firing followed by a persistence call; non-due types and all
other state fields are untouched. -/
theorem c3_repeat_fire_characterization (parse : String → Option Time) (now : Time)
    (σ : Nat → Bool) (st : State) (cfg : Config) (lp0 : List (String × Time))
    (hen : cfg.enableRepeatAudio = true) (hfile : cfg.repeatAudioFile ≠ "")
    (hint : 0 < cfg.repeatIntervalMin)
    (hnd : (st.activeAlertTypes.map Prod.fst).Nodup)
    (hlp : st.lastPlayed = some lp0) :
    (checkAndPlayRepeatAudio parse now σ st cfg).1.activeAlertTypes =
      st.activeAlertTypes ∧
    (checkAndPlayRepeatAudio parse now σ st cfg).1.lastUpdate = st.lastUpdate ∧
    (∃ lpf, (checkAndPlayRepeatAudio parse now σ st cfg).1.lastPlayed = some lpf ∧
      ∀ x, assocLookup x lpf =
        (if memStr x (st.activeAlertTypes.map Prod.fst) &&
            repeatDue parse cfg.repeatIntervalMin now st.lastUpdate lp0 x
         then some (trunc60 now) else assocLookup x lp0)) ∧
    playsOf (checkAndPlayRepeatAudio parse now σ st cfg).2 =
      List.replicate
        (((st.activeAlertTypes.map Prod.fst).filter
          (repeatDue parse cfg.repeatIntervalMin now st.lastUpdate lp0)).length)
        cfg.repeatAudioFile ∧
    (savesOf (checkAndPlayRepeatAudio parse now σ st cfg).2).length =
      ((st.activeAlertTypes.map Prod.fst).filter
        (repeatDue parse cfg.repeatIntervalMin now st.lastUpdate lp0)).length := by
  have hguard : (!cfg.enableRepeatAudio || cfg.repeatAudioFile == "" ||
      decide (cfg.repeatIntervalMin ≤ 0)) = false := by
    rw [hen]
    rw [decide_eq_false (not_le.mpr hint)]
    rw [beq_eq_false_iff_ne.mpr hfile]
    rfl
  have hrun : checkAndPlayRepeatAudio parse now σ st cfg =
      ((repeatFold parse now σ cfg (st.activeAlertTypes.map Prod.fst)
        { st := st, k := 0, tr := [] }).st,
       (repeatFold parse now σ cfg (st.activeAlertTypes.map Prod.fst)
        { st := st, k := 0, tr := [] }).tr) := by
    unfold checkAndPlayRepeatAudio
    rw [hguard]
    rfl
  obtain ⟨ha, hl, hlpf, hpl, hsv⟩ :=
    repeatFold_char parse now σ cfg st.lastUpdate lp0
      (st.activeAlertTypes.map Prod.fst) { st := st, k := 0, tr := [] } lp0 hlp rfl hnd
      (fun _ _ => rfl)
  rw [hrun]
  exact ⟨ha, hl, hlpf, by rw [hpl]; rfl, by rw [hsv]; simp [savesOf]⟩

/-- C3 witness: the characterization applied at a closed input — one active
type "AIR", `lastUpdate` parsing to instant 100, `now` 340 (4 elapsed
minutes, interval 2, nothing recorded for this minute), so the cue is due —
discharging every hypothesis concretely. -/
theorem c3_repeat_fire_characterization_witness :
    (checkAndPlayRepeatAudio parseFix 340 (fun _ => true)
      { activeAlertTypes := [("AIR", true)], lastUpdate := "TS", lastPlayed := some [] }
      cfgFix).1.activeAlertTypes = [("AIR", true)] ∧
    (checkAndPlayRepeatAudio parseFix 340 (fun _ => true)
      { activeAlertTypes := [("AIR", true)], lastUpdate := "TS", lastPlayed := some [] }
      cfgFix).1.lastUpdate = "TS" ∧
    (∃ lpf, (checkAndPlayRepeatAudio parseFix 340 (fun _ => true)
        { activeAlertTypes := [("AIR", true)], lastUpdate := "TS", lastPlayed := some [] }
        cfgFix).1.lastPlayed = some lpf ∧
      ∀ x, assocLookup x lpf =
        (if memStr x ([("AIR", true)].map Prod.fst) &&
            repeatDue parseFix cfgFix.repeatIntervalMin 340 "TS" [] x
         then some (trunc60 340) else assocLookup x ([] : List (String × Time)))) ∧
    playsOf (checkAndPlayRepeatAudio parseFix 340 (fun _ => true)
      { activeAlertTypes := [("AIR", true)], lastUpdate := "TS", lastPlayed := some [] }
      cfgFix).2 =
      List.replicate
        (([("AIR", true)].map Prod.fst).filter
          (repeatDue parseFix cfgFix.repeatIntervalMin 340 "TS" [])).length
        cfgFix.repeatAudioFile ∧
    (savesOf (checkAndPlayRepeatAudio parseFix 340 (fun _ => true)
      { activeAlertTypes := [("AIR", true)], lastUpdate := "TS", lastPlayed := some [] }
      cfgFix).2).length =
      (([("AIR", true)].map Prod.fst).filter
        (repeatDue parseFix cfgFix.repeatIntervalMin 340 "TS" [])).length :=
  c3_repeat_fire_characterization parseFix 340 (fun _ => true)
    { activeAlertTypes := [("AIR", true)], lastUpdate := "TS", lastPlayed := some [] }
    cfgFix [] rfl (by decide) (by decide) (by decide) rfl

end Signal
